import Mathlib

/-!
# Contact-form relay handler (`src/app/api/contact/route.js`)

A shallow embedding of the route handler: the CORS helper `corsHeaders`, the
`OPTIONS` preflight, the helpers `isEmail` and `isPhone`, and the `POST`
handler with its honeypot, normalisation, validation chain, configuration
check and mail dispatch.

JavaScript strings are sequences of UTF-16 code units; `length`, `slice`,
`trim` and the regular expressions of the handler (which carry no `u` flag)
all work on code units, so a string is a list of code units here.

A handler run either returns a response or throws: the conversion
`String(x || "")` of a field throws a `TypeError` on an object that has a
member of its own named `toString`, and nothing in `POST` catches it.
-/

set_option autoImplicit false
set_option maxRecDepth 100000

namespace Contact

/-! ## Strings -/

/-- A UTF-16 code unit. -/
abbrev CodeUnit := Nat

/-- A JavaScript string: its sequence of UTF-16 code units. -/
abbrev JsString := List CodeUnit

/-- A string literal of the source.  Every literal of `route.js` lies in the
Basic Multilingual Plane, so each character is one code unit. -/
def lit (s : String) : JsString := s.toList.map Char.toNat

/-- The code units removed by `String.prototype.trim` and matched by `\s`:
ECMAScript WhiteSpace and LineTerminator. -/
def isWhiteSpace (c : CodeUnit) : Bool :=
  c == 0x09 || c == 0x0A || c == 0x0B || c == 0x0C || c == 0x0D || c == 0x20 ||
  c == 0xA0 || c == 0x1680 || (0x2000 ≤ c && c ≤ 0x200A) || c == 0x2028 ||
  c == 0x2029 || c == 0x202F || c == 0x205F || c == 0x3000 || c == 0xFEFF

/-- The method `String.prototype.trim`. -/
def trim (s : JsString) : JsString :=
  ((s.dropWhile isWhiteSpace).reverse.dropWhile isWhiteSpace).reverse

/-- The call `s.slice(0, n)` for a non-negative `n`. -/
def slice0 (s : JsString) (n : Nat) : JsString := s.take n

/-! ## Parsed JSON values -/

/-- A JSON number as the handler can observe it: through `ToBoolean`
(false exactly for `0` and `-0`; `JSON.parse` never gives `NaN`) and through
`ToString`. -/
structure JsNumber where
  isZero : Bool
  text : JsString

/-- A value produced by `JSON.parse`.  An object is the list of its members
in source order; as in `JSON.parse`, the last member with a given name is
the one a property read sees. -/
inductive Json where
  | null : Json
  | bool (b : Bool) : Json
  | num (n : JsNumber) : Json
  | str (s : JsString) : Json
  | arr (xs : List Json) : Json
  | obj (kvs : List (JsString × Json)) : Json

/-- A JavaScript value of the handler: `none` is `undefined`. -/
abbrev Value := Option Json

/-- Property read `body?.key` / destructuring of `key` for the keys the
handler reads (`website`, `name`, `email`, ...).  Only an object produced by
`JSON.parse` can own such a property; `null`, primitives and arrays give
`undefined`. -/
def getProp : Json → JsString → Value
  | Json.obj kvs, key => (kvs.reverse.find? (fun kv => kv.1 == key)).map Prod.snd
  | _, _ => none

/-- The abstract operation `ToBoolean`. -/
def truthy : Value → Bool
  | none => false
  | some Json.null => false
  | some (Json.bool b) => b
  | some (Json.num n) => !n.isZero
  | some (Json.str s) => !s.isEmpty
  | some (Json.arr _) => true
  | some (Json.obj _) => true

mutual
/-- The conversion `String(v)` of a parsed JSON value; `none` when it throws
a `TypeError`.  An object is converted through `Object.prototype.toString`
unless it has a member of its own named `toString`: that member is not
callable, `valueOf` then gives back the object itself (or is a member that
is not callable either), and `OrdinaryToPrimitive` throws. -/
def jsonToString : Json → Option JsString
  | Json.null => some (lit "null")
  | Json.bool true => some (lit "true")
  | Json.bool false => some (lit "false")
  | Json.num n => some n.text
  | Json.str s => some s
  | Json.arr xs => joinComma xs
  | Json.obj kvs =>
      if kvs.any (fun kv => kv.1 == lit "toString") then none
      else some (lit "[object Object]")
termination_by structural v => v
/-- The method `Array.prototype.join` with separator `","`, as
`Array.prototype.toString` calls it: a `null` element contributes the empty
string, any other element its `String` conversion, which may throw. -/
def joinComma : List Json → Option JsString
  | [] => some []
  | x :: rest =>
      match (match x with
        | Json.null => some []
        | y => jsonToString y) with
      | none => none
      | some s =>
        match rest with
        | [] => some s
        | _ :: _ =>
          match joinComma rest with
          | none => none
          | some t => some (s ++ lit "," ++ t)
termination_by structural xs => xs
end

/-- The conversion `String(v)`; `none` when it throws. -/
def toJsString : Value → Option JsString
  | none => some (lit "undefined")
  | some j => jsonToString j

/-- The expression `String(v || "")`; `none` when it throws. -/
def stringOrEmpty (v : Value) : Option JsString :=
  if truthy v then toJsString v else toJsString (some (Json.str []))

/-! ## Regular expressions

The two patterns of the handler use only character classes, literals,
concatenation and the quantifiers `+` and `{n,}`, anchored at both ends.
They are embedded as syntax trees and run by a derivative matcher. -/

/-- Regular expressions over code units. -/
inductive Regex where
  | none : Regex
  | empty : Regex
  | cls (p : CodeUnit → Bool) : Regex
  | alt (r s : Regex) : Regex
  | seq (r s : Regex) : Regex
  | star (r : Regex) : Regex

namespace Regex

/-- A literal character, such as `@` or `\.`. -/
def chr (c : CodeUnit) : Regex := cls (fun a => a == c)

/-- The quantifier `r+`. -/
def plus (r : Regex) : Regex := seq r (star r)

/-- The quantifier `r{n,}`. -/
def atLeast : Nat → Regex → Regex
  | 0, r => star r
  | n + 1, r => seq r (atLeast n r)

/-- Whether the expression accepts the empty string. -/
def nullable : Regex → Bool
  | none => false
  | empty => true
  | cls _ => false
  | alt r s => r.nullable || s.nullable
  | seq r s => r.nullable && s.nullable
  | star _ => true

/-- The derivative of an expression by one code unit. -/
def deriv : Regex → CodeUnit → Regex
  | none, _ => none
  | empty, _ => none
  | cls p, a => if p a then empty else none
  | alt r s, a => alt (r.deriv a) (s.deriv a)
  | seq r s, a =>
      if r.nullable then alt (seq (r.deriv a) s) (s.deriv a) else seq (r.deriv a) s
  | star r, a => seq (r.deriv a) (star r)

/-- The call `/^r$/.test(s)`: the whole string must match. -/
def test : Regex → JsString → Bool
  | r, [] => r.nullable
  | r, a :: s => (r.deriv a).test s

/-- The language of an expression. -/
inductive Matches : Regex → JsString → Prop
  | empty : Matches Regex.empty []
  | cls (p : CodeUnit → Bool) (a : CodeUnit) : p a = true → Matches (Regex.cls p) [a]
  | altL (r s : Regex) (x : JsString) : Matches r x → Matches (Regex.alt r s) x
  | altR (r s : Regex) (x : JsString) : Matches s x → Matches (Regex.alt r s) x
  | seq (r s : Regex) (x y : JsString) :
      Matches r x → Matches s y → Matches (Regex.seq r s) (x ++ y)
  | starNil (r : Regex) : Matches (Regex.star r) []
  | starCons (r : Regex) (x y : JsString) :
      Matches r x → Matches (Regex.star r) y → Matches (Regex.star r) (x ++ y)

end Regex

/-- The pattern of `isEmail`, `/^[^\s@]+@[^\s@]+\.[^\s@]{2,}$/i`.  The `i`
flag changes nothing: no code unit other than `@`, `.` or a white-space
unit has one of these as its upper-case form. -/
def emailRe : Regex :=
  let notSpaceAt : Regex := Regex.cls (fun c => !(isWhiteSpace c || c == 0x40))
  Regex.seq (Regex.plus notSpaceAt)
    (Regex.seq (Regex.chr 0x40)
      (Regex.seq (Regex.plus notSpaceAt)
        (Regex.seq (Regex.chr 0x2E) (Regex.atLeast 2 notSpaceAt))))

/-- The pattern of `isPhone`, `/^[+()0-9\s-]{6,}$/`. -/
def phoneRe : Regex :=
  Regex.atLeast 6 (Regex.cls (fun c =>
    c == 0x2B || c == 0x28 || c == 0x29 || (0x30 ≤ c && c ≤ 0x39) ||
    isWhiteSpace c || c == 0x2D))

/-- The helper `isEmail`, `String(v || "").trim()` run against the pattern.
The handler applies it to a string, for which `String(v || "")` is `v`. -/
def isEmail (v : JsString) : Bool := emailRe.test (trim (if v.isEmpty then [] else v))

/-- The helper `isPhone`, `!v || pattern.test(String(v).trim())`.  The handler
applies it to a string. -/
def isPhone (v : JsString) : Bool := v.isEmpty || phoneRe.test (trim v)

/-! ## Requests, responses and effects -/

/-- Response headers: the entries of the header object, in source order. -/
abbrev Headers := List (JsString × JsString)

/-- A `Response`: `body` is `none` for the `null` body of the preflight and
`some j` for the text `JSON.stringify(j)`; `headers` are the headers the
response carries, those the constructor adds included. -/
structure Response where
  status : Nat
  headers : Headers
  body : Option Json

/-- What a handler reads from the request: `req.headers.get("origin")`
(`none` is `null`) and the result of `await req.json()` (`none` when it
throws). -/
structure Request where
  origin : Option JsString
  json : Option Json

/-- The variables of `process.env` the handler reads (`none` is
`undefined`). -/
structure Env where
  EMAIL_USER : Option JsString
  EMAIL_PASS : Option JsString
  EMAIL_TO : Option JsString

/-- The options given to `nodemailer.createTransport`. -/
structure Transport where
  service : JsString
  user : Option JsString
  pass : Option JsString

/-- The message object given to `transporter.sendMail`. -/
structure Mail where
  from_ : JsString
  to_ : Option JsString
  subject : JsString
  text : JsString
  replyTo : JsString

/-- The value `sendMail` rejects with, as far as it can be observed. -/
abbrev MailError := JsString

/-- The mail collaborator: for a transport and a message it either confirms
dispatch or fails. -/
abbrev Mailer := Transport → Mail → Except MailError Unit

/-- The observable actions of a handler run, besides its response. -/
inductive Effect where
  | consoleError (args : List JsString) : Effect
  | createTransport (t : Transport) : Effect
  | sendMail (t : Transport) (m : Mail) : Effect

/-- A handler run that returns: the response and the actions performed, in
order.  A handler gives `Option Outcome`: `none` is a run that throws (the
promise of the handler rejects and it builds no response). -/
structure Outcome where
  response : Response
  trace : List Effect

/-- The messages handed to `sendMail` during a run. -/
def sentMails : List Effect → List Mail
  | [] => []
  | Effect.sendMail _ m :: rest => m :: sentMails rest
  | _ :: rest => sentMails rest

/-- The operator `!v` on a string or `undefined`/`null`. -/
def falsy : Option JsString → Bool
  | none => true
  | some s => s.isEmpty

/-- The operator `a || b` on strings or `undefined`/`null`. -/
def orElse (a b : Option JsString) : Option JsString := if falsy a then b else a

/-- A template-literal substitution. -/
def template : Option JsString → JsString
  | none => lit "undefined"
  | some s => s

/-! ## CORS -/

/-- The set `ALLOWED_ORIGINS` (the listing of the source stops after the
third entry; the closing of the set literal is taken as read). -/
def ALLOWED_ORIGINS : List JsString :=
  [lit "https://hexel-tech.de", lit "https://www.hexel-tech.de",
   lit "https://hexel-node1.vercel.app"]

/-- The function `corsHeaders`. -/
def corsHeaders (origin : JsString) : Headers :=
  let allowOrigin := if ALLOWED_ORIGINS.contains origin then origin
    else lit "https://hexel-tech.de"
  [(lit "Access-Control-Allow-Origin", allowOrigin),
   (lit "Access-Control-Allow-Methods", lit "POST, OPTIONS"),
   (lit "Access-Control-Allow-Headers", lit "Content-Type"),
   (lit "Access-Control-Max-Age", lit "86400"),
   (lit "Vary", lit "Origin")]

/-- The value of a header, if present. -/
def header (hs : Headers) (name : JsString) : Option JsString :=
  (hs.find? (fun kv => kv.1 == name)).map Prod.snd

/-- The expression `req.headers.get("origin") || ""`. -/
def requestOrigin (req : Request) : JsString :=
  match req.origin with
  | none => []
  | some o => if o.isEmpty then [] else o

/-- The handler `OPTIONS`. -/
def OPTIONS (req : Request) : Response :=
  let origin := requestOrigin req
  { status := 204, headers := corsHeaders origin, body := none }

/-! ## The submission handler -/

/-- The normalised variables of `POST` after lines 64-92. -/
structure Fields where
  name : JsString
  email : JsString
  company : JsString
  phone : JsString
  subject : JsString
  projectType : JsString
  budget : JsString
  message : JsString
  consent : Value

/-- The statement `if (s.length > n) s = s.slice(0, n)`. -/
def limit (s : JsString) (n : Nat) : JsString :=
  if n < s.length then slice0 s n else s

/-- Lines 64-92: destructuring of `body || {}`, `String(x || "").trim()` for
the eight textual fields in source order, and the six length limits; `none`
when one of the conversions throws. -/
def normalize (body : Json) : Option Fields :=
  let src := if truthy (some body) then body else Json.obj []
  let field := fun (key : String) => (stringOrEmpty (getProp src (lit key))).map trim
  (field "name").bind fun name =>
  (field "email").bind fun email =>
  (field "company").bind fun company =>
  (field "phone").bind fun phone =>
  (field "subject").bind fun subject =>
  (field "projectType").bind fun projectType =>
  (field "budget").bind fun budget =>
  (field "message").bind fun message =>
  some
    { name := limit name 80
      email := limit email 140
      company := limit company 80
      phone := limit phone 40
      subject := limit subject 120
      projectType := projectType
      budget := budget
      message := limit message 5000
      consent := getProp src (lit "consent") }

/-- The honeypot test of line 56:
`typeof body?.website === "string" && body.website.trim().length > 0`. -/
def honeypot (body : Json) : Bool :=
  match getProp body (lit "website") with
  | some (Json.str w) => 0 < (trim w).length
  | _ => false

/-- The comparison `v === true`. -/
def isTrue : Value → Bool
  | some (Json.bool true) => true
  | _ => false

/-- The set `allowedProjectTypes`. -/
def allowedProjectTypes : List JsString :=
  [lit "Branding", lit "Business Website", lit "Web-App", lit "Beratung"]

/-- The set `allowedBudgets`. -/
def allowedBudgets : List JsString :=
  [lit "< 1k", lit "1k–3k", lit "3k–7k", lit "7k–15k", lit "15k+"]

/-- The lower-case form of an ASCII letter; header names are compared
without regard to case. -/
def lowerAscii (c : CodeUnit) : CodeUnit :=
  if 0x41 ≤ c ∧ c ≤ 0x5A then c + 0x20 else c

/-- Whether the header list has a header of the given name, case apart. -/
def hasHeader (hs : Headers) (name : JsString) : Bool :=
  hs.any (fun kv => kv.1.map lowerAscii == name.map lowerAscii)

/-- The header the `Response` constructor appends for a body given as a
string, when the init headers name no content type. -/
def textContentType : JsString × JsString :=
  (lit "content-type", lit "text/plain;charset=UTF-8")

/-- The headers of `new Response(body, { headers })` for a body given as a
string: the init headers, and `content-type: text/plain;charset=UTF-8`
appended unless they already name a content type. -/
def stringBodyHeaders (headers : Headers) : Headers :=
  if hasHeader headers (lit "content-type") then headers else headers ++ [textContentType]

/-- The expression `new Response(JSON.stringify({ message }), { status, headers })`
with a literal message. -/
def respond (status : Nat) (headers : Headers) (message : JsString) : Response :=
  { status := status, headers := stringBodyHeaders headers,
    body := some (Json.obj [(lit "message", Json.str message)]) }

/-- The array `[...].join("\n")`. -/
def joinLines (lines : List JsString) : JsString := List.intercalate (lit "\n") lines

/-- The variable `mailText` of lines 166-179. -/
def mailText (f : Fields) : JsString :=
  joinLines
    [lit "Neue Kontaktanfrage (HEXEL tech)",
     [],
     lit "Name: " ++ f.name,
     lit "E-Mail: " ++ f.email,
     lit "Firma: " ++ (if f.company.isEmpty then lit "-" else f.company),
     lit "Telefon: " ++ (if f.phone.isEmpty then lit "-" else f.phone),
     lit "Betreff: " ++ f.subject,
     lit "Projekt-Typ: " ++ f.projectType,
     lit "Budget: " ++ f.budget,
     [],
     lit "Nachricht:",
     f.message]

/-- The message object of lines 182-188. -/
def mailOf (env : Env) (f : Fields) : Mail :=
  { from_ := lit "\"HEXEL Kontaktformular\" <" ++ template env.EMAIL_USER ++ lit ">"
    to_ := orElse env.EMAIL_TO env.EMAIL_USER
    subject := lit "Kontakt: " ++ f.subject ++ lit " — " ++ f.name
    text := mailText f
    replyTo := f.email }

/-- The handler `POST`, run against a mail collaborator and an
environment; `none` when the run throws. -/
def POST (sendMail : Mailer) (env : Env) (req : Request) : Option Outcome :=
  let origin := requestOrigin req
  let headers := corsHeaders origin
  match req.json with
  | none => some ⟨respond 400 headers (lit "Ungültige Anfrage (JSON)."), []⟩
  | some body =>
    if honeypot body then
      some ⟨respond 200 headers (lit "Danke! Wir melden uns kurzfristig."), []⟩
    else
      match normalize body with
      | none => none
      | some f =>
      if f.name.isEmpty || f.name.length < 2 then
        some ⟨respond 400 headers (lit "Name muss mindestens 2 Zeichen haben."), []⟩
      else if f.email.isEmpty || !isEmail f.email then
        some ⟨respond 400 headers (lit "Ungültige E-Mail-Adresse."), []⟩
      else if f.subject.isEmpty || f.subject.length < 3 then
        some ⟨respond 400 headers (lit "Betreff ist zu kurz."), []⟩
      else if !allowedProjectTypes.contains f.projectType then
        some ⟨respond 400 headers (lit "Bitte Projekt-Typ wählen."), []⟩
      else if !allowedBudgets.contains f.budget then
        some ⟨respond 400 headers (lit "Bitte Budget wählen."), []⟩
      else if !isPhone f.phone then
        some ⟨respond 400 headers (lit "Telefonnummer wirkt ungültig."), []⟩
      else if f.message.isEmpty || f.message.length < 20 then
        some ⟨respond 400 headers (lit "Nachricht muss mindestens 20 Zeichen haben."), []⟩
      else if !isTrue f.consent then
        some ⟨respond 400 headers (lit "Bitte Datenschutz bestätigen."), []⟩
      else if falsy env.EMAIL_USER || falsy env.EMAIL_PASS then
        some ⟨respond 500 headers (lit "Mail-Konfiguration fehlt (Server)."),
          [Effect.consoleError [lit "Missing EMAIL_USER / EMAIL_PASS"]]⟩
      else
        let transporter : Transport :=
          { service := lit "Gmail", user := env.EMAIL_USER, pass := env.EMAIL_PASS }
        let mail := mailOf env f
        match sendMail transporter mail with
        | Except.ok _ =>
          some ⟨respond 200 headers (lit "Danke! Ihre Nachricht wurde erfolgreich gesendet."),
            [Effect.createTransport transporter, Effect.sendMail transporter mail]⟩
        | Except.error err =>
          some ⟨respond 500 headers (lit "Fehler beim Senden der Nachricht."),
            [Effect.createTransport transporter, Effect.sendMail transporter mail,
             Effect.consoleError [lit "Mailer-Fehler:", err]]⟩

/-! ## Specification vocabulary -/

/-- The email shape in words: one or more code units that are neither white
space nor `@`, then `@`, then one or more such units, then `.`, then two or
more such units. -/
def EmailShape (s : JsString) : Prop :=
  ∃ a b c : JsString, s = a ++ 0x40 :: (b ++ 0x2E :: c) ∧
    1 ≤ a.length ∧ 1 ≤ b.length ∧ 2 ≤ c.length ∧
    (∀ x ∈ a, isWhiteSpace x = false ∧ x ≠ 0x40) ∧
    (∀ x ∈ b, isWhiteSpace x = false ∧ x ≠ 0x40) ∧
    (∀ x ∈ c, isWhiteSpace x = false ∧ x ≠ 0x40)

/-- The phone shape in words: six or more code units, each one of `+`, `(`,
`)`, a digit, white space or `-`. -/
def PhoneShape (s : JsString) : Prop :=
  6 ≤ s.length ∧
    ∀ x ∈ s, x = 0x2B ∨ x = 0x28 ∨ x = 0x29 ∨ (0x30 ≤ x ∧ x ≤ 0x39) ∨
      isWhiteSpace x = true ∨ x = 0x2D

/-- The string does not start with white space. -/
def NoLeadingSpace (s : JsString) : Prop :=
  ∀ c : CodeUnit, s.head? = some c → isWhiteSpace c = false

/-- The string does not end with white space. -/
def NoTrailingSpace (s : JsString) : Prop :=
  ∀ c : CodeUnit, s.getLast? = some c → isWhiteSpace c = false

/-- The string is trimmed: no white space at either end. -/
def Trimmed (s : JsString) : Prop := NoLeadingSpace s ∧ NoTrailingSpace s

/-- The eight validation rules of lines 98-145. -/
inductive Rule where
  | name | email | subject | projectType | budget | phone | message | consent

namespace Rule

/-- The position of a rule in the fixed order name, email, subject,
projectType, budget, phone, message, consent. -/
def rank : Rule → Nat
  | name => 0
  | email => 1
  | subject => 2
  | projectType => 3
  | budget => 4
  | phone => 5
  | message => 6
  | consent => 7

/-- The condition under which a rule rejects the normalised fields (the
guards of lines 98, 104, 110, 116, 122, 128, 134 and 140). -/
def fails : Rule → Fields → Bool
  | name, f => f.name.isEmpty || f.name.length < 2
  | email, f => f.email.isEmpty || !isEmail f.email
  | subject, f => f.subject.isEmpty || f.subject.length < 3
  | projectType, f => !allowedProjectTypes.contains f.projectType
  | budget, f => !allowedBudgets.contains f.budget
  | phone, f => !isPhone f.phone
  | message, f => f.message.isEmpty || f.message.length < 20
  | consent, f => !isTrue f.consent

/-- The message a rule reports. -/
def errorMessage : Rule → JsString
  | name => lit "Name muss mindestens 2 Zeichen haben."
  | email => lit "Ungültige E-Mail-Adresse."
  | subject => lit "Betreff ist zu kurz."
  | projectType => lit "Bitte Projekt-Typ wählen."
  | budget => lit "Bitte Budget wählen."
  | phone => lit "Telefonnummer wirkt ungültig."
  | message => lit "Nachricht muss mindestens 20 Zeichen haben."
  | consent => lit "Bitte Datenschutz bestätigen."

end Rule

/-- The textual fields that carry a maximum length. -/
inductive TextField where
  | name | email | company | phone | subject | message

namespace TextField

/-- The property name of a field in the request body. -/
def key : TextField → JsString
  | name => lit "name"
  | email => lit "email"
  | company => lit "company"
  | phone => lit "phone"
  | subject => lit "subject"
  | message => lit "message"

/-- The maximum length of a field. -/
def max : TextField → Nat
  | name => 80
  | email => 140
  | company => 80
  | phone => 40
  | subject => 120
  | message => 5000

/-- The normalised value of a field. -/
def value : TextField → Fields → JsString
  | name, f => f.name
  | email, f => f.email
  | company, f => f.company
  | phone, f => f.phone
  | subject, f => f.subject
  | message, f => f.message

end TextField

/-! ## Concrete inputs -/

/-- A collaborator that confirms every dispatch. -/
def okMailer : Mailer := fun _ _ => Except.ok ()

/-- An environment with the credentials configured and no recipient
override. -/
def scenarioEnv : Env :=
  { EMAIL_USER := some (lit "relay@hexel-tech.de"), EMAIL_PASS := some (lit "secret"),
    EMAIL_TO := none }

/-- The valid scenario body of the specification with the given email and
consent values, and the given extra properties in front. -/
def scenarioWith (extra : List (JsString × Json)) (email : JsString) (consent : Json) : Json :=
  Json.obj (extra ++
    [(lit "name", Json.str (lit "Al")),
     (lit "email", Json.str email),
     (lit "subject", Json.str (lit "Hi there")),
     (lit "projectType", Json.str (lit "Branding")),
     (lit "budget", Json.str (lit "< 1k")),
     (lit "message", Json.str (List.replicate 20 0x78)),
     (lit "consent", consent)])

/-- The normalised fields of the scenario body with the given email and
consent. -/
def scenarioFields (email : JsString) (consent : Value) : Fields :=
  { name := lit "Al", email := email, company := [], phone := [],
    subject := lit "Hi there", projectType := lit "Branding", budget := lit "< 1k",
    message := List.replicate 20 0x78, consent := consent }

/-- The valid scenario body of the specification. -/
def scenarioBody : Json := scenarioWith [] (lit "a@b.co") (Json.bool true)

/-- The valid scenario body with a honeypot field holding one space. -/
def blankHoneypotBody : Json :=
  scenarioWith [(lit "website", Json.str (lit " "))] (lit "a@b.co") (Json.bool true)

/-- The valid scenario body with a filled honeypot field. -/
def spamBody : Json :=
  scenarioWith [(lit "website", Json.str (lit "https://spam.example"))] (lit "a@b.co")
    (Json.bool true)

/-- The scenario body with email `"not-an-email"`. -/
def notAnEmailBody : Json := scenarioWith [] (lit "not-an-email") (Json.bool true)

/-- The scenario body with `consent: false`. -/
def noConsentBody : Json := scenarioWith [] (lit "a@b.co") (Json.bool false)

/-- An address of 139 code units: 134 times `a`, then `@b.co`. -/
def longAddress : JsString := List.replicate 134 0x61 ++ lit "@b.co"

/-- The scenario body whose email is `longAddress`, a space and `zzz`: 143
code units, so that truncation to 140 cuts right after the space. -/
def spaceCutBody : Json :=
  scenarioWith [] (longAddress ++ lit " zzz") (Json.bool true)

/-- The scenario body whose email is `longAddress`, a line feed and `zzz`:
143 code units, so that truncation to 140 cuts right after the line feed. -/
def lineFeedCutBody : Json :=
  scenarioWith [] (longAddress ++ lit "\nzzz") (Json.bool true)

/-- A body with an invalid email and nothing else. -/
def emailOnlyBody : Json := Json.obj [(lit "email", Json.str (lit "x"))]

/-- The normalised fields of `emailOnlyBody`. -/
def emailOnlyFields : Fields :=
  { name := [], email := lit "x", company := [], phone := [], subject := [],
    projectType := [], budget := [], message := [], consent := none }

/-- A body whose name is a space followed by 81 times `a`. -/
def longNameBody : Json := Json.obj [(lit "name", Json.str (0x20 :: List.replicate 81 0x61))]

/-- The normalised fields of `longNameBody`. -/
def longNameFields : Fields :=
  { name := List.replicate 80 0x61, email := [], company := [], phone := [], subject := [],
    projectType := [], budget := [], message := [], consent := none }

/-- The transport the handler creates in `scenarioEnv`. -/
def scenarioTransport : Transport :=
  { service := lit "Gmail", user := scenarioEnv.EMAIL_USER, pass := scenarioEnv.EMAIL_PASS }

/-- The scenario body of the specification with the given name. -/
def namedBody (name : JsString) : Json :=
  Json.obj
    [(lit "name", Json.str name),
     (lit "email", Json.str (lit "a@b.co")),
     (lit "subject", Json.str (lit "Hi there")),
     (lit "projectType", Json.str (lit "Branding")),
     (lit "budget", Json.str (lit "< 1k")),
     (lit "message", Json.str (List.replicate 20 0x78)),
     (lit "consent", Json.bool true)]

/-- The normalised fields of the scenario body with the given normalised
name. -/
def namedFields (name : JsString) : Fields :=
  { name := name, email := lit "a@b.co", company := [], phone := [],
    subject := lit "Hi there", projectType := lit "Branding", budget := lit "< 1k",
    message := List.replicate 20 0x78, consent := some (Json.bool true) }

/-- A name of 81 code units: 79 times `a`, a space and `b`. -/
def spaceAt80Name : JsString := List.replicate 79 0x61 ++ lit " b"

/-- A name of 81 code units: `a`, 79 spaces and `b`. -/
def sparseName : JsString := 0x61 :: (List.replicate 79 0x20 ++ lit "b")

/-- A body whose name is an object with a member of its own named
`toString`. -/
def toStringBody : Json :=
  Json.obj [(lit "name", Json.obj [(lit "toString", Json.null)])]

/-- A collaborator that fails every dispatch with the given error. -/
def failingMailer (err : MailError) : Mailer := fun _ _ => Except.error err

/-- An environment without `EMAIL_USER`. -/
def noUserEnv : Env :=
  { EMAIL_USER := none, EMAIL_PASS := some (lit "secret"), EMAIL_TO := none }

/-! ## The matcher agrees with the language of the pattern -/

namespace Regex

theorem matches_seq_iff (r s : Regex) (w : JsString) :
    Matches (seq r s) w ↔ ∃ x y, w = x ++ y ∧ Matches r x ∧ Matches s y := by
  constructor
  · intro h
    cases h with
    | seq _ _ x y hx hy => exact ⟨x, y, rfl, hx, hy⟩
  · rintro ⟨x, y, rfl, hx, hy⟩
    exact Matches.seq r s x y hx hy

theorem matches_alt_iff (r s : Regex) (w : JsString) :
    Matches (alt r s) w ↔ Matches r w ∨ Matches s w := by
  constructor
  · intro h
    cases h with
    | altL _ _ _ h => exact Or.inl h
    | altR _ _ _ h => exact Or.inr h
  · rintro (h | h)
    · exact Matches.altL r s w h
    · exact Matches.altR r s w h

theorem matches_cls_iff (p : CodeUnit → Bool) (w : JsString) :
    Matches (cls p) w ↔ ∃ a, w = [a] ∧ p a = true := by
  constructor
  · intro h
    cases h with
    | cls _ a ha => exact ⟨a, rfl, ha⟩
  · rintro ⟨a, rfl, ha⟩
    exact Matches.cls p a ha

theorem matches_empty_iff (w : JsString) : Matches empty w ↔ w = [] := by
  constructor
  · intro h
    cases h
    rfl
  · rintro rfl
    exact Matches.empty

theorem not_matches_none (w : JsString) : ¬ Matches none w := by
  intro h
  cases h

theorem nullable_of_matches {r : Regex} {w : JsString} (h : Matches r w) :
    w = [] → r.nullable = true := by
  induction h with
  | empty => intro _; rfl
  | cls p a _ => intro hw; cases hw
  | altL r s x _ ih => intro hw; simp [nullable, ih hw]
  | altR r s x _ ih => intro hw; simp [nullable, ih hw]
  | seq r s x y _ _ ihx ihy =>
    intro hw
    obtain ⟨hx, hy⟩ := List.append_eq_nil.mp hw
    simp [nullable, ihx hx, ihy hy]
  | starNil r => intro _; rfl
  | starCons r x y _ _ _ _ => intro _; rfl

theorem matches_nil_of_nullable (r : Regex) : r.nullable = true → Matches r [] := by
  induction r with
  | none => intro h; simp [nullable] at h
  | empty => intro _; exact Matches.empty
  | cls p => intro h; simp [nullable] at h
  | alt r s ihr ihs =>
    intro h
    simp only [nullable, Bool.or_eq_true] at h
    rcases h with h | h
    · exact Matches.altL r s [] (ihr h)
    · exact Matches.altR r s [] (ihs h)
  | seq r s ihr ihs =>
    intro h
    simp only [nullable, Bool.and_eq_true] at h
    exact Matches.seq r s [] [] (ihr h.1) (ihs h.2)
  | star r _ => intro _; exact Matches.starNil r

theorem matches_nil_iff (r : Regex) : Matches r [] ↔ r.nullable = true :=
  ⟨fun h => nullable_of_matches h rfl, matches_nil_of_nullable r⟩

theorem deriv_of_matches_cons {r : Regex} {w : JsString} (h : Matches r w) :
    ∀ (a : CodeUnit) (z : JsString), w = a :: z → Matches (r.deriv a) z := by
  induction h with
  | empty => intro a z hw; cases hw
  | cls p b hb =>
    intro a z hw
    cases hw
    simp only [deriv, hb, if_true]
    exact Matches.empty
  | altL r s x _ ih =>
    intro a z hw
    exact Matches.altL _ _ _ (ih a z hw)
  | altR r s x _ ih =>
    intro a z hw
    exact Matches.altR _ _ _ (ih a z hw)
  | seq r s x y hx hy ihx ihy =>
    intro a z hw
    cases x with
    | nil =>
      have hn : r.nullable = true := nullable_of_matches hx rfl
      simp only [deriv, hn, if_true]
      exact Matches.altR _ _ _ (ihy a z hw)
    | cons b x1 =>
      simp only [List.cons_append, List.cons.injEq] at hw
      obtain ⟨rfl, rfl⟩ := hw
      have hd : Matches (seq (r.deriv b) s) (x1 ++ y) :=
        Matches.seq _ _ _ _ (ihx b x1 rfl) hy
      by_cases hn : r.nullable = true
      · simp only [deriv, hn, if_true]
        exact Matches.altL _ _ _ hd
      · simp only [deriv, hn, if_false]
        exact hd
  | starNil r => intro a z hw; cases hw
  | starCons r x y hx hy ihx ihy =>
    intro a z hw
    cases x with
    | nil => exact ihy a z hw
    | cons b x1 =>
      simp only [List.cons_append, List.cons.injEq] at hw
      obtain ⟨rfl, rfl⟩ := hw
      exact Matches.seq _ _ _ _ (ihx b x1 rfl) hy

theorem matches_cons_of_deriv (r : Regex) (a : CodeUnit) :
    ∀ z : JsString, Matches (r.deriv a) z → Matches r (a :: z) := by
  induction r with
  | none => intro z h; exact absurd h (not_matches_none z)
  | empty => intro z h; exact absurd h (not_matches_none z)
  | cls p =>
    intro z h
    by_cases hp : p a = true
    · simp only [deriv, hp, if_true] at h
      rw [(matches_empty_iff z).mp h]
      exact Matches.cls p a hp
    · simp only [deriv, hp, if_false] at h
      exact absurd h (not_matches_none z)
  | alt r s ihr ihs =>
    intro z h
    rcases (matches_alt_iff _ _ _).mp h with h | h
    · exact Matches.altL _ _ _ (ihr z h)
    · exact Matches.altR _ _ _ (ihs z h)
  | seq r s ihr ihs =>
    intro z h
    have left : Matches (seq (r.deriv a) s) z → Matches (seq r s) (a :: z) := by
      intro h1
      obtain ⟨u, v, rfl, hu, hv⟩ := (matches_seq_iff _ _ _).mp h1
      exact Matches.seq r s (a :: u) v (ihr u hu) hv
    by_cases hn : r.nullable = true
    · simp only [deriv, hn, if_true] at h
      rcases (matches_alt_iff _ _ _).mp h with h | h
      · exact left h
      · exact Matches.seq r s [] (a :: z) (matches_nil_of_nullable r hn) (ihs z h)
    · simp only [deriv, hn, if_false] at h
      exact left h
  | star r ih =>
    intro z h
    obtain ⟨u, v, rfl, hu, hv⟩ := (matches_seq_iff _ _ _).mp h
    exact Matches.starCons r (a :: u) v (ih u hu) hv

theorem matches_cons_iff (r : Regex) (a : CodeUnit) (z : JsString) :
    Matches r (a :: z) ↔ Matches (r.deriv a) z :=
  ⟨fun h => deriv_of_matches_cons h a z rfl, matches_cons_of_deriv r a z⟩

/-- The matcher decides membership in the language of the expression. -/
theorem test_iff (r : Regex) (w : JsString) : r.test w = true ↔ Matches r w := by
  induction w generalizing r with
  | nil => simp only [test]; exact (matches_nil_iff r).symm
  | cons a z ih => simp only [test]; rw [ih, matches_cons_iff]

end Regex

/-! ## Basic facts about the handler -/

theorem getProp_src (body : Json) (key : JsString) :
    getProp (if truthy (some body) then body else Json.obj []) key = getProp body key := by
  cases body with
  | null => simp [truthy, getProp]
  | bool b => cases b <;> simp [truthy, getProp]
  | num n => cases h : n.isZero <;> simp [truthy, getProp, h]
  | str s => cases s <;> simp [truthy, getProp]
  | arr xs => simp [truthy]
  | obj kvs => simp [truthy]

theorem stringOrEmpty_str (v : JsString) : stringOrEmpty (some (Json.str v)) = some v := by
  cases v <;> simp [stringOrEmpty, truthy, toJsString, jsonToString]

/-! ## The email pattern in words -/

namespace Regex

theorem matches_star_cls_iff (p : CodeUnit → Bool) (w : JsString) :
    Matches (star (cls p)) w ↔ ∀ a ∈ w, p a = true := by
  induction w with
  | nil => exact ⟨fun _ a ha => absurd ha (List.not_mem_nil a), fun _ => Matches.starNil _⟩
  | cons a z ih =>
    rw [matches_cons_iff]
    by_cases hp : p a = true
    · simp only [deriv, hp, if_true, matches_seq_iff, matches_empty_iff]
      constructor
      · rintro ⟨x, y, rfl, rfl, hy⟩
        intro b hb
        rcases List.mem_cons.mp hb with rfl | hb
        · exact hp
        · exact (ih.mp hy) b hb
      · intro h
        exact ⟨[], z, rfl, rfl, ih.mpr (fun b hb => h b (List.mem_cons_of_mem a hb))⟩
    · simp only [deriv, hp, if_false, matches_seq_iff]
      constructor
      · rintro ⟨x, y, _, hx, _⟩
        exact absurd hx (not_matches_none x)
      · intro h
        exact absurd (h a (List.mem_cons_self a z)) hp

theorem matches_atLeast_cls_iff (n : Nat) (p : CodeUnit → Bool) (w : JsString) :
    Matches (atLeast n (cls p)) w ↔ n ≤ w.length ∧ ∀ a ∈ w, p a = true := by
  induction n generalizing w with
  | zero => simp only [atLeast, matches_star_cls_iff, Nat.zero_le, true_and]
  | succ n ih =>
    simp only [atLeast, matches_seq_iff, matches_cls_iff]
    constructor
    · rintro ⟨x, y, rfl, ⟨a, rfl, ha⟩, hy⟩
      obtain ⟨hlen, hall⟩ := (ih y).mp hy
      refine ⟨by simp only [List.singleton_append, List.length_cons]; omega, ?_⟩
      intro b hb
      rcases List.mem_cons.mp hb with rfl | hb
      · exact ha
      · exact hall b hb
    · rintro ⟨hlen, hall⟩
      cases w with
      | nil => simp at hlen
      | cons a z =>
        refine ⟨[a], z, rfl, ⟨a, rfl, hall a (List.mem_cons_self a z)⟩, (ih z).mpr ⟨?_, ?_⟩⟩
        · simp only [List.length_cons] at hlen; omega
        · exact fun b hb => hall b (List.mem_cons_of_mem a hb)

theorem matches_chr_iff (c : CodeUnit) (w : JsString) : Matches (chr c) w ↔ w = [c] := by
  simp only [chr, matches_cls_iff, beq_iff_eq]
  constructor
  · rintro ⟨a, rfl, rfl⟩; rfl
  · rintro rfl; exact ⟨c, rfl, rfl⟩

end Regex

/-- The pattern of `isEmail` accepts exactly the strings of the email
shape. -/
theorem emailRe_test_iff (w : JsString) : emailRe.test w = true ↔ EmailShape w := by
  rw [Regex.test_iff]
  have hp : ∀ x : CodeUnit,
      (!(isWhiteSpace x || x == 0x40)) = true ↔ (isWhiteSpace x = false ∧ x ≠ 0x40) := by
    intro x
    cases isWhiteSpace x <;> simp
  show Regex.Matches
    (Regex.seq (Regex.atLeast 1 (Regex.cls (fun c => !(isWhiteSpace c || c == 0x40))))
      (Regex.seq (Regex.chr 0x40)
        (Regex.seq (Regex.atLeast 1 (Regex.cls (fun c => !(isWhiteSpace c || c == 0x40))))
          (Regex.seq (Regex.chr 0x2E)
            (Regex.atLeast 2 (Regex.cls (fun c => !(isWhiteSpace c || c == 0x40)))))))) w ↔ _
  simp only [Regex.matches_seq_iff, Regex.matches_atLeast_cls_iff, Regex.matches_chr_iff, hp]
  constructor
  · rintro ⟨a, _, rfl, ⟨ha1, ha2⟩, _, _, rfl, rfl, b, _, rfl, ⟨hb1, hb2⟩, _, c, rfl, rfl,
      hc1, hc2⟩
    exact ⟨a, b, c, by simp, ha1, hb1, hc1, ha2, hb2, hc2⟩
  · rintro ⟨a, b, c, rfl, ha1, hb1, hc1, ha2, hb2, hc2⟩
    exact ⟨a, _, rfl, ⟨ha1, ha2⟩, [0x40], _, rfl, rfl, b, _, rfl, ⟨hb1, hb2⟩, [0x2E], c,
      rfl, rfl, hc1, hc2⟩

/-- The helper `isEmail`: the trimmed string has the email shape. -/
theorem isEmail_iff (v : JsString) : isEmail v = true ↔ EmailShape (trim v) := by
  have hv : (if v.isEmpty = true then ([] : JsString) else v) = v := by
    cases v <;> rfl
  rw [isEmail, hv, emailRe_test_iff]

/-- The pattern of `isPhone` accepts exactly the strings of the phone
shape. -/
theorem phoneRe_test_iff (w : JsString) : phoneRe.test w = true ↔ PhoneShape w := by
  rw [Regex.test_iff, phoneRe, Regex.matches_atLeast_cls_iff, PhoneShape]
  simp only [Bool.or_eq_true, Bool.and_eq_true, beq_iff_eq, decide_eq_true_eq, or_assoc]

/-- The helper `isPhone`: the string is empty or its trimmed form has the
phone shape. -/
theorem isPhone_iff (v : JsString) : isPhone v = true ↔ (v = [] ∨ PhoneShape (trim v)) := by
  rw [isPhone, Bool.or_eq_true, phoneRe_test_iff, List.isEmpty_iff]

/-- What a successful normalisation returns: the eight conversions succeed,
and the fields are their trimmed, limited results. -/
theorem normalize_eq_some (body : Json) (f : Fields) (h : normalize body = some f) :
    ∃ name email company phone subject projectType budget message : JsString,
      stringOrEmpty (getProp body (lit "name")) = some name ∧
      stringOrEmpty (getProp body (lit "email")) = some email ∧
      stringOrEmpty (getProp body (lit "company")) = some company ∧
      stringOrEmpty (getProp body (lit "phone")) = some phone ∧
      stringOrEmpty (getProp body (lit "subject")) = some subject ∧
      stringOrEmpty (getProp body (lit "projectType")) = some projectType ∧
      stringOrEmpty (getProp body (lit "budget")) = some budget ∧
      stringOrEmpty (getProp body (lit "message")) = some message ∧
      f = { name := limit (trim name) 80
            email := limit (trim email) 140
            company := limit (trim company) 80
            phone := limit (trim phone) 40
            subject := limit (trim subject) 120
            projectType := trim projectType
            budget := trim budget
            message := limit (trim message) 5000
            consent := getProp body (lit "consent") } := by
  simp only [normalize, getProp_src, Option.bind_eq_some, Option.map_eq_some',
    Option.some.injEq] at h
  obtain ⟨_, ⟨name, h1, rfl⟩, _, ⟨email, h2, rfl⟩, _, ⟨company, h3, rfl⟩, _, ⟨phone, h4, rfl⟩,
    _, ⟨subject, h5, rfl⟩, _, ⟨projectType, h6, rfl⟩, _, ⟨budget, h7, rfl⟩,
    _, ⟨message, h8, rfl⟩, rfl⟩ := h
  exact ⟨name, email, company, phone, subject, projectType, budget, message,
    h1, h2, h3, h4, h5, h6, h7, h8, rfl⟩

/-- When the body parsed, the honeypot guard is false and normalisation
succeeds, a failing rule with no failing rule before it decides the run. -/
theorem POST_first_failing (sendMail : Mailer) (env : Env) (req : Request) (body : Json)
    (f : Fields) (hj : req.json = some body) (hh : honeypot body = false)
    (hn : normalize body = some f) (r : Rule) (hr : r.fails f = true)
    (hfirst : ∀ q : Rule, q.rank < r.rank → q.fails f = false) :
    POST sendMail env req =
      some ⟨respond 400 (corsHeaders (requestOrigin req)) r.errorMessage, []⟩ := by
  cases r with
  | name =>
    simp only [Rule.fails] at hr
    simp only [POST, hj, hh, hn, hr, Rule.errorMessage]
    simp
  | email =>
    have h0 := hfirst Rule.name (by decide)
    simp only [Rule.fails] at h0 hr
    simp only [POST, hj, hh, hn, h0, hr, Rule.errorMessage]
    simp
  | subject =>
    have h0 := hfirst Rule.name (by decide)
    have h1 := hfirst Rule.email (by decide)
    simp only [Rule.fails] at h0 h1 hr
    simp only [POST, hj, hh, hn, h0, h1, hr, Rule.errorMessage]
    simp
  | projectType =>
    have h0 := hfirst Rule.name (by decide)
    have h1 := hfirst Rule.email (by decide)
    have h2 := hfirst Rule.subject (by decide)
    simp only [Rule.fails] at h0 h1 h2 hr
    simp only [POST, hj, hh, hn, h0, h1, h2, hr, Rule.errorMessage]
    simp
  | budget =>
    have h0 := hfirst Rule.name (by decide)
    have h1 := hfirst Rule.email (by decide)
    have h2 := hfirst Rule.subject (by decide)
    have h3 := hfirst Rule.projectType (by decide)
    simp only [Rule.fails] at h0 h1 h2 h3 hr
    simp only [POST, hj, hh, hn, h0, h1, h2, h3, hr, Rule.errorMessage]
    simp
  | phone =>
    have h0 := hfirst Rule.name (by decide)
    have h1 := hfirst Rule.email (by decide)
    have h2 := hfirst Rule.subject (by decide)
    have h3 := hfirst Rule.projectType (by decide)
    have h4 := hfirst Rule.budget (by decide)
    simp only [Rule.fails] at h0 h1 h2 h3 h4 hr
    simp only [POST, hj, hh, hn, h0, h1, h2, h3, h4, hr, Rule.errorMessage]
    simp
  | message =>
    have h0 := hfirst Rule.name (by decide)
    have h1 := hfirst Rule.email (by decide)
    have h2 := hfirst Rule.subject (by decide)
    have h3 := hfirst Rule.projectType (by decide)
    have h4 := hfirst Rule.budget (by decide)
    have h5 := hfirst Rule.phone (by decide)
    simp only [Rule.fails] at h0 h1 h2 h3 h4 h5 hr
    simp only [POST, hj, hh, hn, h0, h1, h2, h3, h4, h5, hr, Rule.errorMessage]
    simp
  | consent =>
    have h0 := hfirst Rule.name (by decide)
    have h1 := hfirst Rule.email (by decide)
    have h2 := hfirst Rule.subject (by decide)
    have h3 := hfirst Rule.projectType (by decide)
    have h4 := hfirst Rule.budget (by decide)
    have h5 := hfirst Rule.phone (by decide)
    have h6 := hfirst Rule.message (by decide)
    simp only [Rule.fails] at h0 h1 h2 h3 h4 h5 h6 hr
    simp only [POST, hj, hh, hn, h0, h1, h2, h3, h4, h5, h6, hr, Rule.errorMessage]
    simp

/-- When the body parsed, the honeypot guard is false, normalisation succeeds
and no rule fails, the run reaches the configuration check. -/
theorem POST_valid (sendMail : Mailer) (env : Env) (req : Request) (body : Json)
    (f : Fields) (hj : req.json = some body) (hh : honeypot body = false)
    (hn : normalize body = some f) (hv : ∀ q : Rule, q.fails f = false) :
    POST sendMail env req =
      if falsy env.EMAIL_USER || falsy env.EMAIL_PASS then
        some ⟨respond 500 (corsHeaders (requestOrigin req))
            (lit "Mail-Konfiguration fehlt (Server)."),
          [Effect.consoleError [lit "Missing EMAIL_USER / EMAIL_PASS"]]⟩
      else
        match sendMail ⟨lit "Gmail", env.EMAIL_USER, env.EMAIL_PASS⟩ (mailOf env f) with
        | Except.ok _ =>
          some ⟨respond 200 (corsHeaders (requestOrigin req))
              (lit "Danke! Ihre Nachricht wurde erfolgreich gesendet."),
            [Effect.createTransport ⟨lit "Gmail", env.EMAIL_USER, env.EMAIL_PASS⟩,
             Effect.sendMail ⟨lit "Gmail", env.EMAIL_USER, env.EMAIL_PASS⟩ (mailOf env f)]⟩
        | Except.error err =>
          some ⟨respond 500 (corsHeaders (requestOrigin req))
              (lit "Fehler beim Senden der Nachricht."),
            [Effect.createTransport ⟨lit "Gmail", env.EMAIL_USER, env.EMAIL_PASS⟩,
             Effect.sendMail ⟨lit "Gmail", env.EMAIL_USER, env.EMAIL_PASS⟩ (mailOf env f),
             Effect.consoleError [lit "Mailer-Fehler:", err]]⟩ := by
  have h0 := hv Rule.name
  have h1 := hv Rule.email
  have h2 := hv Rule.subject
  have h3 := hv Rule.projectType
  have h4 := hv Rule.budget
  have h5 := hv Rule.phone
  have h6 := hv Rule.message
  have h7 := hv Rule.consent
  simp only [Rule.fails] at h0 h1 h2 h3 h4 h5 h6 h7
  simp only [POST, hj, hh, hn, h0, h1, h2, h3, h4, h5, h6, h7]
  simp

/-- Among failing rules there is a first one in the fixed order. -/
theorem exists_first_failing (f : Fields) (h : ∃ r : Rule, r.fails f = true) :
    ∃ r : Rule, r.fails f = true ∧ ∀ q : Rule, q.rank < r.rank → q.fails f = false := by
  by_contra hne
  push_neg at hne
  have hall : ∀ n : Nat, ∀ r : Rule, r.rank = n → r.fails f = false := by
    intro n
    induction n using Nat.strong_induction_on with
    | _ n ih =>
      intro r hr
      by_contra hf
      have hf1 : r.fails f = true := by simpa using hf
      obtain ⟨q, hq, hqf⟩ := hne r hf1
      have hq0 := ih q.rank (hr ▸ hq) q rfl
      exact hqf hq0
  obtain ⟨r, hr⟩ := h
  rw [hall r.rank r rfl] at hr
  exact Bool.false_ne_true hr

/-- Either some rule fails or none does. -/
theorem fails_none_or_some (f : Fields) :
    (∀ q : Rule, q.fails f = false) ∨ ∃ r : Rule, r.fails f = true := by
  by_cases h : ∃ r : Rule, r.fails f = true
  · exact Or.inr h
  · left
    intro q
    cases hq : q.fails f with
    | false => rfl
    | true => exact absurd ⟨q, hq⟩ h

/-- When the body parsed and the honeypot guard is true, the run is the
honeypot response with no action. -/
theorem POST_honeypot (sendMail : Mailer) (env : Env) (req : Request) (body : Json)
    (hj : req.json = some body) (hh : honeypot body = true) :
    POST sendMail env req =
      some ⟨respond 200 (corsHeaders (requestOrigin req))
        (lit "Danke! Wir melden uns kurzfristig."), []⟩ := by
  simp only [POST, hj, hh, if_true]

/-- When the body parsed, the honeypot guard is false and a conversion
throws, the run throws. -/
theorem POST_threw (sendMail : Mailer) (env : Env) (req : Request) (body : Json)
    (hj : req.json = some body) (hh : honeypot body = false) (hn : normalize body = none) :
    POST sendMail env req = none := by
  simp only [POST, hj, hh, hn]
  simp

/-- A mail is handed to the collaborator only when the honeypot guard is
false, normalisation succeeds and no rule fails; it is then the one mail of
the run, built from the normalised fields. -/
theorem valid_of_sent (sendMail : Mailer) (env : Env) (req : Request) (body : Json)
    (o : Outcome) (hj : req.json = some body) (hP : POST sendMail env req = some o)
    (m : Mail) (hm : m ∈ sentMails o.trace) :
    honeypot body = false ∧ ∃ f : Fields, normalize body = some f ∧
      (∀ q : Rule, q.fails f = false) ∧ sentMails o.trace = [mailOf env f] ∧
      m = mailOf env f := by
  cases hh : honeypot body with
  | true =>
    rw [POST_honeypot sendMail env req body hj hh] at hP
    cases hP
    cases hm
  | false =>
    refine ⟨rfl, ?_⟩
    cases hn : normalize body with
    | none =>
      rw [POST_threw sendMail env req body hj hh hn] at hP
      cases hP
    | some f =>
      rcases fails_none_or_some f with hv | hfail
      · refine ⟨f, rfl, hv, ?_⟩
        rw [POST_valid sendMail env req body f hj hh hn hv] at hP
        have hs : sentMails o.trace = [mailOf env f] := by
          split_ifs at hP
          · cases hP
            cases hm
          · cases hs : sendMail ⟨lit "Gmail", env.EMAIL_USER, env.EMAIL_PASS⟩ (mailOf env f) with
            | ok u => rw [hs] at hP; cases hP; rfl
            | error e => rw [hs] at hP; cases hP; rfl
        rw [hs] at hm
        exact ⟨hs, List.mem_singleton.mp hm⟩
      · obtain ⟨r, hr, hfirst⟩ := exists_first_failing f hfail
        rw [POST_first_failing sendMail env req body f hj hh hn r hr hfirst] at hP
        cases hP
        cases hm

/-! ## C1: the honeypot short-circuit -/

/-- C1 fails as stated: with the non-empty honeypot value `" "` (one space)
the otherwise valid scenario body is not answered by the honeypot message;
it is validated, the mail is handed to the collaborator and the response is
the dispatch success message. -/
theorem honeypot_blank_counterexample :
    getProp blankHoneypotBody (lit "website") = some (Json.str (lit " ")) ∧
    lit " " ≠ [] ∧
    POST okMailer scenarioEnv ⟨none, some blankHoneypotBody⟩ =
      some ⟨respond 200 (corsHeaders [])
          (lit "Danke! Ihre Nachricht wurde erfolgreich gesendet."),
        [Effect.createTransport scenarioTransport,
         Effect.sendMail scenarioTransport
           (mailOf scenarioEnv (scenarioFields (lit "a@b.co") (some (Json.bool true))))]⟩ ∧
    lit "Danke! Ihre Nachricht wurde erfolgreich gesendet." ≠
      lit "Danke! Wir melden uns kurzfristig." := by
  refine ⟨by rfl, by decide, by rfl, by decide⟩

/-- C1 (amended): for every request whose body parsed and whose `website`
field is a string that is non-empty after trimming white space, whatever the
other fields, the origin, the environment and the collaborator, the run is
the 200 response with message "Danke! Wir melden uns kurzfristig." and
performs no action at all (no mail, no transport, no log). -/
theorem honeypot_short_circuit (sendMail : Mailer) (env : Env) (req : Request)
    (body : Json) (w : JsString) (hj : req.json = some body)
    (hw : getProp body (lit "website") = some (Json.str w)) (ht : trim w ≠ []) :
    POST sendMail env req =
      some ⟨respond 200 (corsHeaders (requestOrigin req))
        (lit "Danke! Wir melden uns kurzfristig."), []⟩ := by
  have hh : honeypot body = true := by
    simp only [honeypot, hw]
    simpa [List.length_pos] using ht
  exact POST_honeypot sendMail env req body hj hh

/-- C1 (amended) at the scenario body with `website` set to
`"https://spam.example"`. -/
theorem honeypot_short_circuit_witness :
    getProp spamBody (lit "website") = some (Json.str (lit "https://spam.example")) ∧
    trim (lit "https://spam.example") ≠ [] ∧
    POST okMailer scenarioEnv ⟨none, some spamBody⟩ =
      some ⟨respond 200 (corsHeaders (requestOrigin ⟨none, some spamBody⟩))
        (lit "Danke! Wir melden uns kurzfristig."), []⟩ :=
  ⟨by rfl, by decide,
    honeypot_short_circuit okMailer scenarioEnv ⟨none, some spamBody⟩ spamBody
      (lit "https://spam.example") rfl (by rfl) (by decide)⟩

/-! ## C2: the first failing rule decides -/

/-- C2: for every request whose body parsed with the honeypot guard false
(in particular an absent or empty `website`) and at least one failing rule
on the normalised fields, there is a first failing rule in the order name,
email, subject, projectType, budget, phone, message, consent; the run is the
400 response carrying that rule's message and performs no action (no mail);
the message reported is the message of no later rule. -/
theorem first_failing_rule_reported (sendMail : Mailer) (env : Env) (req : Request)
    (body : Json) (f : Fields) (hj : req.json = some body) (hh : honeypot body = false)
    (hn : normalize body = some f) (hfail : ∃ r : Rule, r.fails f = true) :
    ∃ r : Rule, r.fails f = true ∧
      (∀ q : Rule, q.rank < r.rank → q.fails f = false) ∧
      POST sendMail env req =
        some ⟨respond 400 (corsHeaders (requestOrigin req)) r.errorMessage, []⟩ ∧
      (∀ q : Rule, r.rank < q.rank →
        POST sendMail env req ≠
          some ⟨respond 400 (corsHeaders (requestOrigin req)) q.errorMessage, []⟩) := by
  obtain ⟨r, hr, hfirst⟩ := exists_first_failing f hfail
  have hP := POST_first_failing sendMail env req body f hj hh hn r hr hfirst
  refine ⟨r, hr, hfirst, hP, ?_⟩
  intro q hq heq
  rw [hP] at heq
  have hm : r.errorMessage = q.errorMessage := by
    simpa [respond] using heq
  have hne : ∀ a b : Rule, a.rank < b.rank → a.errorMessage ≠ b.errorMessage := by
    intro a b
    cases a <;> cases b <;> decide
  exact hne r q hq hm

/-- C2 at a body whose name, email and consent are all invalid: a first
failing rule exists and its message is the one reported. -/
theorem first_failing_rule_reported_witness :
    ∃ r : Rule, r.fails emailOnlyFields = true ∧
      (∀ q : Rule, q.rank < r.rank → q.fails emailOnlyFields = false) ∧
      POST okMailer scenarioEnv ⟨none, some emailOnlyBody⟩ =
        some ⟨respond 400 (corsHeaders (requestOrigin ⟨none, some emailOnlyBody⟩))
          r.errorMessage, []⟩ ∧
      (∀ q : Rule, r.rank < q.rank →
        POST okMailer scenarioEnv ⟨none, some emailOnlyBody⟩ ≠
          some ⟨respond 400 (corsHeaders (requestOrigin ⟨none, some emailOnlyBody⟩))
            q.errorMessage, []⟩) :=
  first_failing_rule_reported okMailer scenarioEnv ⟨none, some emailOnlyBody⟩
    emailOnlyBody emailOnlyFields rfl (by decide) (by rfl) ⟨Rule.email, by decide⟩

/-! ## C3: truncation to the maximum length -/

/-- The normalised value of a field submitted as the string `v`. -/
theorem value_normalize (fld : TextField) (body : Json) (f : Fields) (v : JsString)
    (hn : normalize body = some f) (hv : getProp body fld.key = some (Json.str v)) :
    fld.value f = limit (trim v) fld.max := by
  obtain ⟨name, email, company, phone, subject, projectType, budget, message,
    h1, h2, h3, h4, h5, h6, h7, h8, rfl⟩ := normalize_eq_some body f hn
  cases fld <;> simp only [TextField.key] at hv <;>
    simp only [hv, stringOrEmpty_str, Option.some.injEq] at h1 h2 h3 h4 h5 h8 <;>
    subst_vars <;> rfl

/-- C3: for each of the six fields with a maximum (name 80, email 140,
company 80, phone 40, subject 120, message 5000) and every submitted string
`v`: when the trimmed value is longer than the maximum, the normalised value
is exactly its first `max` code units (and has length `max`); when it is
within the maximum, the normalised value is the trimmed value unchanged.
The normalised fields are the ones the validation chain reads, and every
mail handed to the collaborator is built from them. -/
theorem normalize_truncates (fld : TextField) (body : Json) (f : Fields) (v : JsString)
    (hn : normalize body = some f) (hv : getProp body fld.key = some (Json.str v)) :
    (fld.max < (trim v).length →
      fld.value f = (trim v).take fld.max ∧ (fld.value f).length = fld.max) ∧
    ((trim v).length ≤ fld.max → fld.value f = trim v) ∧
    (∀ (sendMail : Mailer) (env : Env) (req : Request) (o : Outcome),
      req.json = some body → POST sendMail env req = some o →
      ∀ m ∈ sentMails o.trace,
        m = mailOf env f ∧ m.replyTo = TextField.email.value f ∧ m.text = mailText f) := by
  have hval := value_normalize fld body f v hn hv
  refine ⟨?_, ?_, ?_⟩
  · intro hlt
    rw [hval, limit, if_pos hlt, slice0]
    exact ⟨rfl, by rw [List.length_take]; omega⟩
  · intro hle
    rw [hval]
    simp only [limit, slice0]
    rw [if_neg (by omega)]
  · intro sendMail env req o hj hP m hm
    obtain ⟨_, g, hg, _, _, hmg⟩ := valid_of_sent sendMail env req body o hj hP m hm
    rw [hn] at hg
    cases hg
    subst hmg
    exact ⟨rfl, rfl, rfl⟩

/-- C3 at the name field with a trimmed value of 81 code units: the first 80
are used. -/
theorem normalize_truncates_witness :
    (TextField.name.max < (trim (0x20 :: List.replicate 81 0x61)).length →
      TextField.name.value longNameFields =
        (trim (0x20 :: List.replicate 81 0x61)).take TextField.name.max ∧
      (TextField.name.value longNameFields).length = TextField.name.max) ∧
    ((trim (0x20 :: List.replicate 81 0x61)).length ≤ TextField.name.max →
      TextField.name.value longNameFields = trim (0x20 :: List.replicate 81 0x61)) ∧
    (∀ (sendMail : Mailer) (env : Env) (req : Request) (o : Outcome),
      req.json = some longNameBody → POST sendMail env req = some o →
      ∀ m ∈ sentMails o.trace,
        m = mailOf env longNameFields ∧
        m.replyTo = TextField.email.value longNameFields ∧
        m.text = mailText longNameFields) :=
  normalize_truncates TextField.name longNameBody longNameFields
    (0x20 :: List.replicate 81 0x61) (by rfl) (by rfl)

/-! ## C4: a valid submission is dispatched -/

/-- C4: for every request whose body parsed with the honeypot guard false
and whose normalised fields pass all eight rules, when `EMAIL_USER` and
`EMAIL_PASS` are configured and the collaborator confirms the dispatch, the
response is 200 with message "Danke! Ihre Nachricht wurde erfolgreich
gesendet." and exactly one mail was handed to the collaborator, with
`replyTo` equal to the normalised email. -/
theorem valid_submission_dispatched (sendMail : Mailer) (env : Env) (req : Request)
    (body : Json) (f : Fields) (hj : req.json = some body) (hh : honeypot body = false)
    (hn : normalize body = some f) (hv : ∀ q : Rule, q.fails f = false)
    (hu : falsy env.EMAIL_USER = false) (hp : falsy env.EMAIL_PASS = false)
    (hs : sendMail ⟨lit "Gmail", env.EMAIL_USER, env.EMAIL_PASS⟩ (mailOf env f) =
      Except.ok ()) :
    ∃ o : Outcome, POST sendMail env req = some o ∧
      o.response = respond 200 (corsHeaders (requestOrigin req))
        (lit "Danke! Ihre Nachricht wurde erfolgreich gesendet.") ∧
      ∃ m : Mail, sentMails o.trace = [m] ∧ m.replyTo = f.email := by
  have hP : POST sendMail env req =
      some ⟨respond 200 (corsHeaders (requestOrigin req))
          (lit "Danke! Ihre Nachricht wurde erfolgreich gesendet."),
        [Effect.createTransport ⟨lit "Gmail", env.EMAIL_USER, env.EMAIL_PASS⟩,
         Effect.sendMail ⟨lit "Gmail", env.EMAIL_USER, env.EMAIL_PASS⟩ (mailOf env f)]⟩ := by
    rw [POST_valid sendMail env req body f hj hh hn hv]
    simp only [hu, hp, Bool.or_self, Bool.false_eq_true, if_false, hs]
  exact ⟨_, hP, rfl, mailOf env f, rfl, rfl⟩

/-- C4 at the scenario body of the specification: success, one mail, with
reply-to `a@b.co`. -/
theorem valid_submission_dispatched_witness :
    (scenarioFields (lit "a@b.co") (some (Json.bool true))).email = lit "a@b.co" ∧
    ∃ o : Outcome, POST okMailer scenarioEnv ⟨none, some scenarioBody⟩ = some o ∧
      o.response = respond 200 (corsHeaders (requestOrigin ⟨none, some scenarioBody⟩))
        (lit "Danke! Ihre Nachricht wurde erfolgreich gesendet.") ∧
      ∃ m : Mail, sentMails o.trace = [m] ∧
        m.replyTo = (scenarioFields (lit "a@b.co") (some (Json.bool true))).email :=
  ⟨rfl,
    valid_submission_dispatched okMailer scenarioEnv ⟨none, some scenarioBody⟩ scenarioBody
      (scenarioFields (lit "a@b.co") (some (Json.bool true)))
      rfl (by decide) (by rfl) (by intro q; cases q <;> decide) (by decide) (by decide) rfl⟩

/-! ## C5: the email rule -/

/-- With a valid name, an email that is empty after normalisation, or whose
trimmed form lacks the email shape, is answered by the email message, and
nothing is handed to the collaborator. -/
theorem email_rule_rejects (sendMail : Mailer) (env : Env) (req : Request) (body : Json)
    (f : Fields) (hj : req.json = some body) (hh : honeypot body = false)
    (hn : normalize body = some f) (hname : Rule.name.fails f = false)
    (he : f.email = [] ∨ ¬ EmailShape (trim f.email)) :
    POST sendMail env req =
      some ⟨respond 400 (corsHeaders (requestOrigin req)) (lit "Ungültige E-Mail-Adresse."),
        []⟩ := by
  have hr : Rule.email.fails f = true := by
    simp only [Rule.fails, Bool.or_eq_true, Bool.not_eq_true']
    rcases he with he | he
    · exact Or.inl (by rw [he]; rfl)
    · right
      cases hq : isEmail f.email with
      | false => rfl
      | true => exact absurd ((isEmail_iff _).mp hq) he
  refine POST_first_failing sendMail env req body f hj hh hn Rule.email hr ?_
  intro q hq
  cases q <;> first | exact hname | exact absurd hq (by decide)

/-- The scenario of the specification with email `"not-an-email"`: the email
message, and nothing handed to the collaborator. -/
theorem email_rule_rejects_not_an_email :
    POST okMailer scenarioEnv ⟨none, some notAnEmailBody⟩ =
      some ⟨respond 400 (corsHeaders []) (lit "Ungültige E-Mail-Adresse."), []⟩ :=
  email_rule_rejects okMailer scenarioEnv ⟨none, some notAnEmailBody⟩ notAnEmailBody
    (scenarioFields (lit "not-an-email") (some (Json.bool true))) rfl
    (by decide) (by rfl) (by decide) (Or.inr (by rw [← emailRe_test_iff]; decide))

/-- C5, the code at the failing input: the scenario body whose email is a
139-unit address followed by a space and `zzz`.  The name is valid and the
normalised email (the address and the space, 140 units) does not have the
email shape, yet the email rule does not reject: `isEmail` trims again
before matching, the run passes every rule and the mail is handed to the
collaborator. -/
theorem email_rule_accepts_space_cut :
    honeypot spaceCutBody = false ∧
    normalize spaceCutBody =
      some (scenarioFields (longAddress ++ lit " ") (some (Json.bool true))) ∧
    ¬ EmailShape (longAddress ++ lit " ") ∧
    POST okMailer scenarioEnv ⟨none, some spaceCutBody⟩ =
      some ⟨respond 200 (corsHeaders [])
          (lit "Danke! Ihre Nachricht wurde erfolgreich gesendet."),
        [Effect.createTransport scenarioTransport,
         Effect.sendMail scenarioTransport
           (mailOf scenarioEnv
             (scenarioFields (longAddress ++ lit " ") (some (Json.bool true))))]⟩ := by
  refine ⟨by decide, by rfl, ?_, by rfl⟩
  rw [← emailRe_test_iff]
  decide

/-! ## C6: consent -/

/-- C6: for every request whose body parsed with the honeypot guard false
and whose normalised fields pass the seven rules before consent, when
`consent` is anything other than the boolean `true` (absent, `false`, `null`,
a string, a number, ...) the run is the 400 response with message "Bitte
Datenschutz bestätigen." and performs no action (no mail). -/
theorem consent_required (sendMail : Mailer) (env : Env) (req : Request) (body : Json)
    (f : Fields) (hj : req.json = some body) (hh : honeypot body = false)
    (hn : normalize body = some f)
    (hv : ∀ q : Rule, q.rank < Rule.consent.rank → q.fails f = false)
    (hc : getProp body (lit "consent") ≠ some (Json.bool true)) :
    POST sendMail env req =
      some ⟨respond 400 (corsHeaders (requestOrigin req)) (lit "Bitte Datenschutz bestätigen."),
        []⟩ := by
  have hcons : f.consent = getProp body (lit "consent") := by
    obtain ⟨_, _, _, _, _, _, _, _, _, _, _, _, _, _, _, _, rfl⟩ := normalize_eq_some body f hn
    rfl
  have hr : Rule.consent.fails f = true := by
    simp only [Rule.fails, hcons]
    generalize getProp body (lit "consent") = c at hc
    match c, hc with
    | none, _ => rfl
    | some Json.null, _ => rfl
    | some (Json.bool false), _ => rfl
    | some (Json.bool true), hc => exact absurd rfl hc
    | some (Json.num _), _ => rfl
    | some (Json.str _), _ => rfl
    | some (Json.arr _), _ => rfl
    | some (Json.obj _), _ => rfl
  exact POST_first_failing sendMail env req body f hj hh hn Rule.consent hr hv

/-- C6 at the scenario body with `consent: false`. -/
theorem consent_required_witness :
    getProp noConsentBody (lit "consent") = some (Json.bool false) ∧
    POST okMailer scenarioEnv ⟨none, some noConsentBody⟩ =
      some ⟨respond 400 (corsHeaders (requestOrigin ⟨none, some noConsentBody⟩))
        (lit "Bitte Datenschutz bestätigen."), []⟩ :=
  ⟨by rfl,
    consent_required okMailer scenarioEnv ⟨none, some noConsentBody⟩ noConsentBody
      (scenarioFields (lit "a@b.co") (some (Json.bool false))) rfl
      (by decide) (by rfl) (by intro q; cases q <;> decide)
      (by intro h; cases h)⟩

/-! ## C7: missing credentials -/

/-- C7: for every request whose body parsed with the honeypot guard false
and whose normalised fields pass all eight rules, when `EMAIL_USER` or
`EMAIL_PASS` is absent or empty the response is 500 with message
"Mail-Konfiguration fehlt (Server).", the only action is the console record
(no transport, no mail), and the message is not the dispatch-failure
message "Fehler beim Senden der Nachricht.". -/
theorem missing_credentials (sendMail : Mailer) (env : Env) (req : Request) (body : Json)
    (f : Fields) (hj : req.json = some body) (hh : honeypot body = false)
    (hn : normalize body = some f) (hv : ∀ q : Rule, q.fails f = false)
    (hc : falsy env.EMAIL_USER = true ∨ falsy env.EMAIL_PASS = true) :
    POST sendMail env req =
      some ⟨respond 500 (corsHeaders (requestOrigin req))
          (lit "Mail-Konfiguration fehlt (Server)."),
        [Effect.consoleError [lit "Missing EMAIL_USER / EMAIL_PASS"]]⟩ ∧
    sentMails [Effect.consoleError [lit "Missing EMAIL_USER / EMAIL_PASS"]] = [] ∧
    lit "Mail-Konfiguration fehlt (Server)." ≠ lit "Fehler beim Senden der Nachricht." := by
  have hP : POST sendMail env req =
      some ⟨respond 500 (corsHeaders (requestOrigin req))
          (lit "Mail-Konfiguration fehlt (Server)."),
        [Effect.consoleError [lit "Missing EMAIL_USER / EMAIL_PASS"]]⟩ := by
    rw [POST_valid sendMail env req body f hj hh hn hv]
    have hor : (falsy env.EMAIL_USER || falsy env.EMAIL_PASS) = true := by
      rcases hc with h | h <;> simp [h]
    rw [if_pos hor]
  exact ⟨hP, rfl, by decide⟩

/-- C7 at the scenario body with `EMAIL_USER` absent. -/
theorem missing_credentials_witness :
    falsy noUserEnv.EMAIL_USER = true ∧
    POST okMailer noUserEnv ⟨none, some scenarioBody⟩ =
      some ⟨respond 500 (corsHeaders (requestOrigin ⟨none, some scenarioBody⟩))
        (lit "Mail-Konfiguration fehlt (Server)."),
        [Effect.consoleError [lit "Missing EMAIL_USER / EMAIL_PASS"]]⟩ ∧
    sentMails [Effect.consoleError [lit "Missing EMAIL_USER / EMAIL_PASS"]] = [] ∧
    lit "Mail-Konfiguration fehlt (Server)." ≠ lit "Fehler beim Senden der Nachricht." :=
  ⟨by decide,
    missing_credentials okMailer noUserEnv ⟨none, some scenarioBody⟩ scenarioBody
      (scenarioFields (lit "a@b.co") (some (Json.bool true))) rfl
      (by decide) (by rfl) (by intro q; cases q <;> decide) (Or.inl (by decide))⟩

/-! ## C8: the allowed origin -/

theorem requestOrigin_eq (req : Request) : requestOrigin req = req.origin.getD [] := by
  cases h : req.origin with
  | none => simp [requestOrigin, h]
  | some o => cases o <;> simp [requestOrigin, h]

theorem ALLOWED_ORIGINS_contains_iff (o : JsString) :
    ALLOWED_ORIGINS.contains o = true ↔
      (o = lit "https://hexel-tech.de" ∨ o = lit "https://www.hexel-tech.de" ∨
        o = lit "https://hexel-node1.vercel.app") := by
  simp [ALLOWED_ORIGINS]

/-- C8: for every origin string `o`, the `Access-Control-Allow-Origin`
header of `corsHeaders(o)` is `o` when `o` is one of the three allowed
origins and the default `https://hexel-tech.de` otherwise, so it equals `o`
exactly when `o` is allowed; the `OPTIONS` preflight returns status 204 with
the headers `corsHeaders(origin || "")`, and with the origin header absent
its allowed origin is the default. -/
theorem cors_allow_origin (o : JsString) (req : Request) :
    header (corsHeaders o) (lit "Access-Control-Allow-Origin") =
      some (if o = lit "https://hexel-tech.de" ∨ o = lit "https://www.hexel-tech.de" ∨
              o = lit "https://hexel-node1.vercel.app"
            then o else lit "https://hexel-tech.de") ∧
    (header (corsHeaders o) (lit "Access-Control-Allow-Origin") = some o ↔
      (o = lit "https://hexel-tech.de" ∨ o = lit "https://www.hexel-tech.de" ∨
        o = lit "https://hexel-node1.vercel.app")) ∧
    (OPTIONS req).status = 204 ∧
    (OPTIONS req).headers = corsHeaders (req.origin.getD []) ∧
    header (OPTIONS ⟨none, req.json⟩).headers (lit "Access-Control-Allow-Origin") =
      some (lit "https://hexel-tech.de") := by
  have h1 : header (corsHeaders o) (lit "Access-Control-Allow-Origin") =
      some (if ALLOWED_ORIGINS.contains o = true then o else lit "https://hexel-tech.de") := by
    rfl
  have h2 := ALLOWED_ORIGINS_contains_iff o
  refine ⟨?_, ?_, rfl, ?_, by rfl⟩
  · rw [h1]
    by_cases hc : ALLOWED_ORIGINS.contains o = true
    · rw [if_pos hc, if_pos (h2.mp hc)]
    · rw [if_neg hc, if_neg (fun h => hc (h2.mpr h))]
  · rw [h1]
    by_cases hc : ALLOWED_ORIGINS.contains o = true
    · rw [if_pos hc]
      exact ⟨fun _ => h2.mp hc, fun _ => rfl⟩
    · rw [if_neg hc]
      constructor
      · intro h
        exact Or.inl (Option.some.inj h).symm
      · intro h
        exact absurd (h2.mpr h) hc
  · show corsHeaders (requestOrigin req) = _
    rw [requestOrigin_eq]

/-! ## C9: a body that is not JSON -/

/-- C9: for every request whose body does not parse, whatever the origin,
the environment and the collaborator, the run is the 400 response with the
fixed message "Ungültige Anfrage (JSON)." and performs no action: no rule is
evaluated and no mail is handed to the collaborator. -/
theorem invalid_json_rejected (sendMail : Mailer) (env : Env) (origin : Option JsString) :
    POST sendMail env ⟨origin, none⟩ =
      some ⟨respond 400 (corsHeaders (origin.getD [])) (lit "Ungültige Anfrage (JSON)."), []⟩ ∧
    (respond 400 (corsHeaders (origin.getD [])) (lit "Ungültige Anfrage (JSON).")).status = 400 ∧
    (respond 400 (corsHeaders (origin.getD [])) (lit "Ungültige Anfrage (JSON).")).body =
      some (Json.obj [(lit "message", Json.str (lit "Ungültige Anfrage (JSON)."))]) := by
  have hP : POST sendMail env ⟨origin, none⟩ =
      some ⟨respond 400 (corsHeaders (origin.getD [])) (lit "Ungültige Anfrage (JSON)."),
        []⟩ := by
    simp only [POST, requestOrigin_eq]
  exact ⟨hP, rfl, rfl⟩

/-! ## C10: the values handed to the collaborator -/

/-- C10, the code at the failing input: the scenario body whose email is a
139-unit address followed by a line feed and `zzz`.  One mail is handed to
the collaborator, and its `replyTo` is the address followed by the line
feed: 140 units that do not have the email shape. -/
theorem replyTo_keeps_line_feed :
    ∃ (o : Outcome) (m : Mail),
      POST okMailer scenarioEnv ⟨none, some lineFeedCutBody⟩ = some o ∧
      sentMails o.trace = [m] ∧
      m.replyTo = longAddress ++ lit "\n" ∧
      m.replyTo.length = 140 ∧
      ¬ EmailShape m.replyTo := by
  refine ⟨_, mailOf scenarioEnv (scenarioFields (longAddress ++ lit "\n") (some (Json.bool true))),
    by rfl, by rfl, by rfl, by decide, ?_⟩
  rw [← emailRe_test_iff]
  decide

theorem length_trim_le (s : JsString) : (trim s).length ≤ s.length := by
  rw [trim, List.length_reverse]
  calc ((s.dropWhile isWhiteSpace).reverse.dropWhile isWhiteSpace).length
      ≤ (s.dropWhile isWhiteSpace).reverse.length :=
        (List.dropWhile_sublist isWhiteSpace).length_le
    _ = (s.dropWhile isWhiteSpace).length := List.length_reverse _
    _ ≤ s.length := (List.dropWhile_sublist isWhiteSpace).length_le

/-- A code unit of a string survives `trim` or is white space. -/
theorem mem_trim_or_isWhiteSpace (s : JsString) (x : CodeUnit) (hx : x ∈ s) :
    x ∈ trim s ∨ isWhiteSpace x = true := by
  rw [← List.takeWhile_append_dropWhile isWhiteSpace s, List.mem_append] at hx
  rcases hx with hx | hx
  · exact Or.inr (List.mem_takeWhile_imp hx)
  · rw [← List.mem_reverse,
      ← List.takeWhile_append_dropWhile isWhiteSpace (s.dropWhile isWhiteSpace).reverse,
      List.mem_append] at hx
    rcases hx with hx | hx
    · exact Or.inr (List.mem_takeWhile_imp hx)
    · exact Or.inl (by rw [trim, List.mem_reverse]; exact hx)

theorem length_limit_le (s : JsString) (n : Nat) : (limit s n).length ≤ n := by
  unfold limit
  split_ifs with h
  · exact List.length_take_le n s
  · omega

/-- Every mail handed to the collaborator is built from fields that satisfy
the data model, except that the email shape is only known of the trimmed
email: name has 2 to 80 code units, email at most 140 with its trimmed form
of the email shape, company at most 80, phone at most 40 and empty or of the
phone shape, subject 3 to 120, projectType and budget in their sets, message
20 to 5000, consent the boolean `true`. -/
theorem sent_mail_fields (sendMail : Mailer) (env : Env) (req : Request) (body : Json)
    (o : Outcome) (hj : req.json = some body) (hP : POST sendMail env req = some o)
    (m : Mail) (hm : m ∈ sentMails o.trace) :
    ∃ f : Fields, normalize body = some f ∧ m = mailOf env f ∧
    (2 ≤ f.name.length ∧ f.name.length ≤ 80) ∧
    (f.email.length ≤ 140 ∧ EmailShape (trim f.email)) ∧
    f.company.length ≤ 80 ∧
    (f.phone.length ≤ 40 ∧ (f.phone = [] ∨ PhoneShape f.phone)) ∧
    (3 ≤ f.subject.length ∧ f.subject.length ≤ 120) ∧
    f.projectType ∈ allowedProjectTypes ∧
    f.budget ∈ allowedBudgets ∧
    (20 ≤ f.message.length ∧ f.message.length ≤ 5000) ∧
    f.consent = some (Json.bool true) := by
  obtain ⟨_, f, hn, hv, _, hmail⟩ := valid_of_sent sendMail env req body o hj hP m hm
  have h0 := hv Rule.name
  have h1 := hv Rule.email
  have h2 := hv Rule.subject
  have h3 := hv Rule.projectType
  have h4 := hv Rule.budget
  have h5 := hv Rule.phone
  have h6 := hv Rule.message
  have h7 := hv Rule.consent
  simp only [Rule.fails, Bool.or_eq_false_iff, decide_eq_false_iff_not, not_lt,
    Bool.not_eq_false'] at h0 h1 h2 h3 h4 h5 h6 h7
  have h3m : f.projectType ∈ allowedProjectTypes := by simpa using h3
  have h4m : f.budget ∈ allowedBudgets := by simpa using h4
  obtain ⟨name, email, company, phone, subject, projectType, budget, message,
    _, _, _, _, _, _, _, _, hf⟩ := normalize_eq_some body f hn
  have hl : f.name.length ≤ 80 ∧ f.email.length ≤ 140 ∧ f.company.length ≤ 80 ∧
      f.phone.length ≤ 40 ∧ f.subject.length ≤ 120 ∧ f.message.length ≤ 5000 := by
    rw [hf]
    exact ⟨length_limit_le _ _, length_limit_le _ _, length_limit_le _ _,
      length_limit_le _ _, length_limit_le _ _, length_limit_le _ _⟩
  refine ⟨f, hn, hmail, ⟨h0.2, hl.1⟩, ⟨hl.2.1, (isEmail_iff _).mp h1.2⟩, hl.2.2.1,
    ⟨hl.2.2.2.1, ?_⟩, ⟨h2.2, hl.2.2.2.2.1⟩, h3m, h4m, ⟨h6.2, hl.2.2.2.2.2⟩, ?_⟩
  · rcases (isPhone_iff _).mp h5 with hp | ⟨hlen, hall⟩
    · exact Or.inl hp
    · right
      refine ⟨le_trans hlen (length_trim_le _), ?_⟩
      intro x hx
      rcases mem_trim_or_isWhiteSpace _ x hx with hx1 | hx1
      · exact hall x hx1
      · exact Or.inr (Or.inr (Or.inr (Or.inr (Or.inl hx1))))
  · generalize f.consent = c at h7
    match c, h7 with
    | some (Json.bool true), _ => rfl
    | none, h => simp [isTrue] at h
    | some Json.null, h => simp [isTrue] at h
    | some (Json.bool false), h => simp [isTrue] at h
    | some (Json.num _), h => simp [isTrue] at h
    | some (Json.str _), h => simp [isTrue] at h
    | some (Json.arr _), h => simp [isTrue] at h
    | some (Json.obj _), h => simp [isTrue] at h

/-! ## White space at the ends of a normalised value -/

theorem trim_eq (s : JsString) :
    trim s = (s.dropWhile isWhiteSpace).rdropWhile isWhiteSpace := rfl

theorem noLeadingSpace_dropWhile (s : JsString) :
    NoLeadingSpace (s.dropWhile isWhiteSpace) := by
  intro c hc
  have h := List.head?_dropWhile_not isWhiteSpace s
  rw [hc] at h
  exact h

theorem noLeadingSpace_of_initial {s t : JsString} (h : s <+: t) (ht : NoLeadingSpace t) :
    NoLeadingSpace s := by
  intro c hc
  cases s with
  | nil => cases hc
  | cons a r =>
    obtain ⟨u, rfl⟩ := h
    have hac : a = c := by simpa using hc
    subst hac
    exact ht a rfl

theorem noLeadingSpace_trim (s : JsString) : NoLeadingSpace (trim s) :=
  noLeadingSpace_of_initial ( List.rdropWhile_prefix isWhiteSpace _) (noLeadingSpace_dropWhile s)

theorem noTrailingSpace_trim (s : JsString) : NoTrailingSpace (trim s) := by
  intro c hc
  rw [trim_eq] at hc
  have hne : (s.dropWhile isWhiteSpace).rdropWhile isWhiteSpace ≠ [] := by
    intro h
    rw [h] at hc
    cases hc
  have hlast := List.rdropWhile_last_not isWhiteSpace _ hne
  rw [List.getLast?_eq_getLast _ hne, Option.some.injEq] at hc
  rw [hc] at hlast
  simpa using hlast

theorem trimmed_trim (s : JsString) : Trimmed (trim s) :=
  ⟨noLeadingSpace_trim s, noTrailingSpace_trim s⟩

/-- A string without white space at its ends is left alone by `trim`. -/
theorem trim_of_trimmed (t : JsString) (h : Trimmed t) : trim t = t := by
  have hd : t.dropWhile isWhiteSpace = t := by
    cases t with
    | nil => rfl
    | cons a r =>
      have ha : isWhiteSpace a = false := h.1 a rfl
      simp [List.dropWhile, ha]
  rw [trim_eq, hd, List.rdropWhile_eq_self_iff]
  intro hl hp
  have hq := h.2 (t.getLast hl) (List.getLast?_eq_getLast _ hl)
  rw [hq] at hp
  exact Bool.false_ne_true hp

theorem trim_trim (s : JsString) : trim (trim s) = trim s :=
  trim_of_trimmed _ (trimmed_trim s)

/-- The method `trim` leaves nothing exactly when every code unit is white
space. -/
theorem trim_eq_nil_iff (s : JsString) :
    trim s = [] ↔ ∀ c ∈ s, isWhiteSpace c = true := by
  rw [trim_eq, List.rdropWhile_eq_nil_iff]
  constructor
  · intro h
    have hd : s.dropWhile isWhiteSpace = [] := by
      cases hq : s.dropWhile isWhiteSpace with
      | nil => rfl
      | cons a r =>
        have h1 : isWhiteSpace a = false := by
          have := noLeadingSpace_dropWhile s a (by rw [hq]; rfl)
          exact this
        have h2 : isWhiteSpace a = true := h a (by rw [hq]; exact List.mem_cons_self a r)
        rw [h1] at h2
        exact absurd h2 Bool.false_ne_true
    exact List.dropWhile_eq_nil_iff.mp hd
  · intro h x hx
    exact h x ((List.dropWhile_sublist isWhiteSpace).subset hx)

theorem limit_initial (t : JsString) (n : Nat) : limit t n <+: t := by
  unfold limit
  split_ifs
  · exact List.take_prefix n t
  · exact List.prefix_refl t

theorem limit_eq_or_length (t : JsString) (n : Nat) :
    limit t n = t ∨ (limit t n).length = n := by
  unfold limit
  split_ifs with h
  · right
    rw [slice0, List.length_take]
    omega
  · exact Or.inl rfl

/-- The shape of a trimmed and limited value. -/
theorem limit_trim_shape (x : JsString) (n : Nat) :
    NoLeadingSpace (limit (trim x) n) ∧ (limit (trim x) n).length ≤ n ∧
      (NoTrailingSpace (limit (trim x) n) ∨ (limit (trim x) n).length = n) := by
  refine ⟨noLeadingSpace_of_initial (limit_initial _ _) (noLeadingSpace_trim x),
    length_limit_le _ _, ?_⟩
  rcases limit_eq_or_length (trim x) n with h | h
  · left
    rw [h]
    exact noTrailingSpace_trim x
  · exact Or.inr h

/-! ## C11: what reaches validation -/

/-- C11 fails as stated: for the scenario body whose name is 79 times `a`, a
space and `b`, the name that reaches validation is 79 times `a` and the
space; it passes the name rule and ends in white space. -/
theorem normalized_name_trailing_space :
    normalize (namedBody spaceAt80Name) =
      some (namedFields (List.replicate 79 0x61 ++ lit " ")) ∧
    Rule.name.fails (namedFields (List.replicate 79 0x61 ++ lit " ")) = false ∧
    ¬ NoTrailingSpace (namedFields (List.replicate 79 0x61 ++ lit " ")).name := by
  refine ⟨by rfl, by decide, ?_⟩
  intro h
  have h1 := h 0x20 (by decide)
  exact absurd h1 (by decide)

/-- C11 (amended): for every parsed body whose normalisation succeeds, each
of the six limited fields (name, email, company, phone, subject, message)
has no leading white space, is no longer than its maximum, and has no
trailing white space unless it was cut to exactly its maximum length;
projectType and budget, which have no maximum, have no white space at either
end. -/
theorem normalized_fields_shape (body : Json) (f : Fields) (hn : normalize body = some f) :
    (∀ fld : TextField,
      NoLeadingSpace (fld.value f) ∧ (fld.value f).length ≤ fld.max ∧
        (NoTrailingSpace (fld.value f) ∨ (fld.value f).length = fld.max)) ∧
    Trimmed f.projectType ∧ Trimmed f.budget := by
  obtain ⟨name, email, company, phone, subject, projectType, budget, message,
    _, _, _, _, _, _, _, _, rfl⟩ := normalize_eq_some body f hn
  refine ⟨?_, trimmed_trim _, trimmed_trim _⟩
  intro fld
  cases fld <;> exact limit_trim_shape _ _

/-- C11 (amended) at the scenario body of the specification. -/
theorem normalized_fields_shape_witness :
    (∀ fld : TextField,
      NoLeadingSpace (fld.value (scenarioFields (lit "a@b.co") (some (Json.bool true)))) ∧
      (fld.value (scenarioFields (lit "a@b.co") (some (Json.bool true)))).length ≤ fld.max ∧
        (NoTrailingSpace (fld.value (scenarioFields (lit "a@b.co") (some (Json.bool true)))) ∨
          (fld.value (scenarioFields (lit "a@b.co") (some (Json.bool true)))).length =
            fld.max)) ∧
    Trimmed (scenarioFields (lit "a@b.co") (some (Json.bool true))).projectType ∧
    Trimmed (scenarioFields (lit "a@b.co") (some (Json.bool true))).budget :=
  normalized_fields_shape scenarioBody (scenarioFields (lit "a@b.co") (some (Json.bool true)))
    (by rfl)

/-! ## The runs of the handler -/

/-- Every run that returns answers with `respond` on the permission headers
of the request origin, with status 200, 400 or 500. -/
theorem POST_returns (sendMail : Mailer) (env : Env) (req : Request) (o : Outcome)
    (hP : POST sendMail env req = some o) :
    ∃ (status : Nat) (msg : JsString),
      o.response = respond status (corsHeaders (requestOrigin req)) msg ∧
      (status = 200 ∨ status = 400 ∨ status = 500) := by
  cases hj : req.json with
  | none =>
    simp only [POST, hj] at hP
    cases hP
    exact ⟨400, _, rfl, Or.inr (Or.inl rfl)⟩
  | some body =>
    cases hh : honeypot body with
    | true =>
      rw [POST_honeypot sendMail env req body hj hh] at hP
      cases hP
      exact ⟨200, _, rfl, Or.inl rfl⟩
    | false =>
      cases hn : normalize body with
      | none =>
        rw [POST_threw sendMail env req body hj hh hn] at hP
        cases hP
      | some f =>
        rcases fails_none_or_some f with hv | hfail
        · rw [POST_valid sendMail env req body f hj hh hn hv] at hP
          split_ifs at hP
          · cases hP
            exact ⟨500, _, rfl, Or.inr (Or.inr rfl)⟩
          · cases hs : sendMail ⟨lit "Gmail", env.EMAIL_USER, env.EMAIL_PASS⟩ (mailOf env f) with
            | ok u =>
              rw [hs] at hP
              cases hP
              exact ⟨200, _, rfl, Or.inl rfl⟩
            | error e =>
              rw [hs] at hP
              cases hP
              exact ⟨500, _, rfl, Or.inr (Or.inr rfl)⟩
        · obtain ⟨r, hr, hfirst⟩ := exists_first_failing f hfail
          rw [POST_first_failing sendMail env req body f hj hh hn r hr hfirst] at hP
          cases hP
          exact ⟨400, _, rfl, Or.inr (Or.inl rfl)⟩

/-- Different rules report different messages. -/
theorem errorMessage_injective (a b : Rule) (h : a.errorMessage = b.errorMessage) : a = b := by
  cases a <;> cases b <;> first | rfl | exact absurd h (by decide)

/-- When no rule fails, the run is not a 400 response. -/
theorem POST_valid_ne_400 (sendMail : Mailer) (env : Env) (req : Request) (body : Json)
    (f : Fields) (hj : req.json = some body) (hh : honeypot body = false)
    (hn : normalize body = some f) (hv : ∀ q : Rule, q.fails f = false)
    (hs : Headers) (msg : JsString) (t : List Effect) :
    POST sendMail env req ≠ some ⟨respond 400 hs msg, t⟩ := by
  intro hP
  rw [POST_valid sendMail env req body f hj hh hn hv] at hP
  split_ifs at hP
  · simp [respond] at hP
  · cases hs : sendMail ⟨lit "Gmail", env.EMAIL_USER, env.EMAIL_PASS⟩ (mailOf env f) with
    | ok u =>
      rw [hs] at hP
      simp [respond] at hP
    | error e =>
      rw [hs] at hP
      simp [respond] at hP

/-! ## C12: the phone rule -/

/-- C12: for every request whose body parsed with the honeypot guard false
and whose normalised name, email, subject, projectType and budget pass their
rules, the run is the 400 response with message "Telefonnummer wirkt
ungültig." exactly when the normalised phone is non-empty and its trimmed
form is not a string of six or more code units among `+`, `(`, `)`, digits,
white space and `-`; in particular an absent or empty phone is never
rejected by the phone rule. -/
theorem phone_rule_iff (sendMail : Mailer) (env : Env) (req : Request) (body : Json)
    (f : Fields) (hj : req.json = some body) (hh : honeypot body = false)
    (hn : normalize body = some f)
    (hv : ∀ q : Rule, q.rank < Rule.phone.rank → q.fails f = false) :
    (POST sendMail env req =
        some ⟨respond 400 (corsHeaders (requestOrigin req))
          (lit "Telefonnummer wirkt ungültig."), []⟩ ↔
      (f.phone ≠ [] ∧ ¬ PhoneShape (trim f.phone))) ∧
    ((getProp body (lit "phone") = none ∨ getProp body (lit "phone") = some (Json.str [])) →
      f.phone = [] ∧
      POST sendMail env req ≠
        some ⟨respond 400 (corsHeaders (requestOrigin req))
          (lit "Telefonnummer wirkt ungültig."), []⟩) := by
  have hfails : Rule.phone.fails f = true ↔ (f.phone ≠ [] ∧ ¬ PhoneShape (trim f.phone)) := by
    have h := isPhone_iff f.phone
    simp only [Rule.fails, Bool.not_eq_true']
    cases hq : isPhone f.phone with
    | true =>
      rw [hq] at h
      have h1 := h.mp rfl
      constructor
      · intro hc
        cases hc
      · rintro ⟨h2, h3⟩
        rcases h1 with h1 | h1
        · exact absurd h1 h2
        · exact absurd h1 h3
    | false =>
      rw [hq] at h
      refine ⟨fun _ => ⟨fun h2 => ?_, fun h3 => ?_⟩, fun _ => rfl⟩
      · exact Bool.false_ne_true (h.mpr (Or.inl h2))
      · exact Bool.false_ne_true (h.mpr (Or.inr h3))
  have hiff : POST sendMail env req =
        some ⟨respond 400 (corsHeaders (requestOrigin req))
          (lit "Telefonnummer wirkt ungültig."), []⟩ ↔ Rule.phone.fails f = true := by
    constructor
    · intro hP
      rcases fails_none_or_some f with hall | hfail
      · exact absurd hP (POST_valid_ne_400 sendMail env req body f hj hh hn hall _ _ _)
      · obtain ⟨r, hr, hfirst⟩ := exists_first_failing f hfail
        rw [POST_first_failing sendMail env req body f hj hh hn r hr hfirst] at hP
        have hm : r.errorMessage = Rule.phone.errorMessage := by
          simpa [respond] using hP
        rw [← errorMessage_injective r Rule.phone hm]
        exact hr
    · intro hr
      exact POST_first_failing sendMail env req body f hj hh hn Rule.phone hr hv
  refine ⟨hiff.trans hfails, ?_⟩
  intro habs
  have hphone : f.phone = [] := by
    obtain ⟨name, email, company, phone, subject, projectType, budget, message,
      _, _, _, h4, _, _, _, _, rfl⟩ := normalize_eq_some body f hn
    rcases habs with h | h
    · rw [h] at h4
      have : phone = [] := by
        simpa [stringOrEmpty, truthy, toJsString, jsonToString] using h4.symm
      subst this
      rfl
    · rw [h, stringOrEmpty_str] at h4
      cases h4
      rfl
  refine ⟨hphone, ?_⟩
  intro hP
  exact ((hiff.trans hfails).mp hP).1 hphone

/-- C12 at the scenario body, which has no phone: the phone rule does not
reject. -/
theorem phone_rule_iff_witness :
    (POST okMailer scenarioEnv ⟨none, some scenarioBody⟩ =
        some ⟨respond 400 (corsHeaders (requestOrigin ⟨none, some scenarioBody⟩))
          (lit "Telefonnummer wirkt ungültig."), []⟩ ↔
      ((scenarioFields (lit "a@b.co") (some (Json.bool true))).phone ≠ [] ∧
        ¬ PhoneShape (trim (scenarioFields (lit "a@b.co") (some (Json.bool true))).phone))) ∧
    ((getProp scenarioBody (lit "phone") = none ∨
        getProp scenarioBody (lit "phone") = some (Json.str [])) →
      (scenarioFields (lit "a@b.co") (some (Json.bool true))).phone = [] ∧
      POST okMailer scenarioEnv ⟨none, some scenarioBody⟩ ≠
        some ⟨respond 400 (corsHeaders (requestOrigin ⟨none, some scenarioBody⟩))
          (lit "Telefonnummer wirkt ungültig."), []⟩) :=
  phone_rule_iff okMailer scenarioEnv ⟨none, some scenarioBody⟩ scenarioBody
    (scenarioFields (lit "a@b.co") (some (Json.bool true))) rfl (by decide) (by rfl)
    (by intro q _; cases q <;> decide)

/-! ## C13: runs that throw -/

/-- C13, the code at the failing input: the body
`{"name": {"toString": null}}` parses, the honeypot guard is false, and the
conversion `String(name || "")` of line 77 throws a `TypeError`; the run
returns no response. -/
theorem post_throws_on_toString_member :
    honeypot toStringBody = false ∧
    stringOrEmpty (getProp toStringBody (lit "name")) = none ∧
    normalize toStringBody = none ∧
    POST okMailer scenarioEnv ⟨none, some toStringBody⟩ = none := by
  refine ⟨by decide, by decide, by rfl, by rfl⟩

/-! ## C14: the mail that is dispatched -/

/-- A mail is handed to the collaborator only with both credentials set. -/
theorem configured_of_sent (sendMail : Mailer) (env : Env) (req : Request) (body : Json)
    (o : Outcome) (hj : req.json = some body) (hP : POST sendMail env req = some o)
    (m : Mail) (hm : m ∈ sentMails o.trace) :
    falsy env.EMAIL_USER = false ∧ falsy env.EMAIL_PASS = false := by
  obtain ⟨hh, f, hn, hv, _, _⟩ := valid_of_sent sendMail env req body o hj hP m hm
  rw [POST_valid sendMail env req body f hj hh hn hv] at hP
  cases hu : falsy env.EMAIL_USER with
  | true =>
    simp only [hu, Bool.true_or, if_true] at hP
    cases hP
    cases hm
  | false =>
    cases hp : falsy env.EMAIL_PASS with
    | true =>
      simp only [hu, hp, Bool.or_true, if_true] at hP
      cases hP
      cases hm
    | false => exact ⟨rfl, rfl⟩

/-- C14: every mail handed to the collaborator has, for the normalised
fields of the body: as text the twelve lines "Neue Kontaktanfrage (HEXEL
tech)", "", "Name: name", "E-Mail: email", "Firma: company or -",
"Telefon: phone or -", "Betreff: subject", "Projekt-Typ: projectType",
"Budget: budget", "", "Nachricht:", message, in this order with a line
feed between consecutive lines; as subject "Kontakt: subject — name"; as
`replyTo` the normalised email; and as recipient `EMAIL_TO` when it is set
and non-empty, `EMAIL_USER` otherwise. -/
theorem dispatched_mail_contents (sendMail : Mailer) (env : Env) (req : Request)
    (body : Json) (o : Outcome) (hj : req.json = some body)
    (hP : POST sendMail env req = some o) (m : Mail) (hm : m ∈ sentMails o.trace) :
    ∃ f : Fields, normalize body = some f ∧
      m.text =
        lit "Neue Kontaktanfrage (HEXEL tech)" ++ lit "\n" ++
        lit "\n" ++
        lit "Name: " ++ f.name ++ lit "\n" ++
        lit "E-Mail: " ++ f.email ++ lit "\n" ++
        lit "Firma: " ++ (if f.company = [] then lit "-" else f.company) ++ lit "\n" ++
        lit "Telefon: " ++ (if f.phone = [] then lit "-" else f.phone) ++ lit "\n" ++
        lit "Betreff: " ++ f.subject ++ lit "\n" ++
        lit "Projekt-Typ: " ++ f.projectType ++ lit "\n" ++
        lit "Budget: " ++ f.budget ++ lit "\n" ++
        lit "\n" ++
        lit "Nachricht:" ++ lit "\n" ++
        f.message ∧
      m.subject = lit "Kontakt: " ++ f.subject ++ lit " — " ++ f.name ∧
      m.replyTo = f.email ∧
      m.to_ = (match env.EMAIL_TO with
        | some t => if t = [] then env.EMAIL_USER else some t
        | none => env.EMAIL_USER) := by
  obtain ⟨_, f, hn, _, _, hmf⟩ := valid_of_sent sendMail env req body o hj hP m hm
  refine ⟨f, hn, ?_, ?_, ?_, ?_⟩
  · rw [hmf]
    simp only [mailOf, mailText, joinLines, List.intercalate, List.intersperse,
      List.flatten, List.isEmpty_iff, List.append_assoc, List.append_nil, List.nil_append]
  · rw [hmf]
    rfl
  · rw [hmf]
    rfl
  · rw [hmf]
    simp only [mailOf, orElse]
    cases env.EMAIL_TO with
    | none => rfl
    | some t => cases t <;> rfl

/-- C14 at the scenario body of the specification. -/
theorem dispatched_mail_contents_witness :
    ∃ f : Fields, normalize scenarioBody = some f ∧
      (mailOf scenarioEnv (scenarioFields (lit "a@b.co") (some (Json.bool true)))).text =
        lit "Neue Kontaktanfrage (HEXEL tech)" ++ lit "\n" ++
        lit "\n" ++
        lit "Name: " ++ f.name ++ lit "\n" ++
        lit "E-Mail: " ++ f.email ++ lit "\n" ++
        lit "Firma: " ++ (if f.company = [] then lit "-" else f.company) ++ lit "\n" ++
        lit "Telefon: " ++ (if f.phone = [] then lit "-" else f.phone) ++ lit "\n" ++
        lit "Betreff: " ++ f.subject ++ lit "\n" ++
        lit "Projekt-Typ: " ++ f.projectType ++ lit "\n" ++
        lit "Budget: " ++ f.budget ++ lit "\n" ++
        lit "\n" ++
        lit "Nachricht:" ++ lit "\n" ++
        f.message ∧
      (mailOf scenarioEnv (scenarioFields (lit "a@b.co") (some (Json.bool true)))).subject =
        lit "Kontakt: " ++ f.subject ++ lit " — " ++ f.name ∧
      (mailOf scenarioEnv (scenarioFields (lit "a@b.co") (some (Json.bool true)))).replyTo =
        f.email ∧
      (mailOf scenarioEnv (scenarioFields (lit "a@b.co") (some (Json.bool true)))).to_ =
        (match scenarioEnv.EMAIL_TO with
          | some t => if t = [] then scenarioEnv.EMAIL_USER else some t
          | none => scenarioEnv.EMAIL_USER) :=
  dispatched_mail_contents okMailer scenarioEnv ⟨none, some scenarioBody⟩ scenarioBody
    ⟨respond 200 (corsHeaders [])
        (lit "Danke! Ihre Nachricht wurde erfolgreich gesendet."),
      [Effect.createTransport scenarioTransport,
       Effect.sendMail scenarioTransport
         (mailOf scenarioEnv (scenarioFields (lit "a@b.co") (some (Json.bool true))))]⟩
    rfl (by rfl)
    (mailOf scenarioEnv (scenarioFields (lit "a@b.co") (some (Json.bool true))))
    (List.mem_singleton.mpr rfl)

/-! ## C15: a dispatch that fails -/

/-- C15: for every request whose body parsed with the honeypot guard false
and whose normalised fields pass all eight rules, with both credentials set,
when the collaborator fails with an error the response is 500 with the
message "Fehler beim Senden der Nachricht."; the collaborator was called
exactly once (no retry), the error only goes to the console record, and the
response is the same whatever the error is. -/
theorem dispatch_failure_reported (sendMail : Mailer) (env : Env) (req : Request)
    (body : Json) (f : Fields) (err : MailError) (hj : req.json = some body)
    (hh : honeypot body = false) (hn : normalize body = some f)
    (hv : ∀ q : Rule, q.fails f = false)
    (hu : falsy env.EMAIL_USER = false) (hp : falsy env.EMAIL_PASS = false)
    (hs : sendMail ⟨lit "Gmail", env.EMAIL_USER, env.EMAIL_PASS⟩ (mailOf env f) =
      Except.error err) :
    POST sendMail env req =
      some ⟨respond 500 (corsHeaders (requestOrigin req))
          (lit "Fehler beim Senden der Nachricht."),
        [Effect.createTransport ⟨lit "Gmail", env.EMAIL_USER, env.EMAIL_PASS⟩,
         Effect.sendMail ⟨lit "Gmail", env.EMAIL_USER, env.EMAIL_PASS⟩ (mailOf env f),
         Effect.consoleError [lit "Mailer-Fehler:", err]]⟩ ∧
    sentMails
        [Effect.createTransport ⟨lit "Gmail", env.EMAIL_USER, env.EMAIL_PASS⟩,
         Effect.sendMail ⟨lit "Gmail", env.EMAIL_USER, env.EMAIL_PASS⟩ (mailOf env f),
         Effect.consoleError [lit "Mailer-Fehler:", err]] = [mailOf env f] ∧
    (∀ (other : Mailer) (err2 : MailError),
      other ⟨lit "Gmail", env.EMAIL_USER, env.EMAIL_PASS⟩ (mailOf env f) = Except.error err2 →
      ∃ o2 : Outcome, POST other env req = some o2 ∧
        o2.response = respond 500 (corsHeaders (requestOrigin req))
          (lit "Fehler beim Senden der Nachricht.")) := by
  have key : ∀ (sm : Mailer) (e : MailError),
      sm ⟨lit "Gmail", env.EMAIL_USER, env.EMAIL_PASS⟩ (mailOf env f) = Except.error e →
      POST sm env req =
        some ⟨respond 500 (corsHeaders (requestOrigin req))
            (lit "Fehler beim Senden der Nachricht."),
          [Effect.createTransport ⟨lit "Gmail", env.EMAIL_USER, env.EMAIL_PASS⟩,
           Effect.sendMail ⟨lit "Gmail", env.EMAIL_USER, env.EMAIL_PASS⟩ (mailOf env f),
           Effect.consoleError [lit "Mailer-Fehler:", e]]⟩ := by
    intro sm e hsm
    rw [POST_valid sm env req body f hj hh hn hv]
    simp only [hu, hp, Bool.or_self, Bool.false_eq_true, if_false, hsm]
  refine ⟨key sendMail err hs, rfl, ?_⟩
  intro other err2 h2
  exact ⟨_, key other err2 h2, rfl⟩

/-- C15 at the scenario body with a collaborator that fails with
`"ECONNREFUSED"`. -/
theorem dispatch_failure_reported_witness :
    POST (failingMailer (lit "ECONNREFUSED")) scenarioEnv ⟨none, some scenarioBody⟩ =
      some ⟨respond 500 (corsHeaders (requestOrigin ⟨none, some scenarioBody⟩))
          (lit "Fehler beim Senden der Nachricht."),
        [Effect.createTransport ⟨lit "Gmail", scenarioEnv.EMAIL_USER, scenarioEnv.EMAIL_PASS⟩,
         Effect.sendMail ⟨lit "Gmail", scenarioEnv.EMAIL_USER, scenarioEnv.EMAIL_PASS⟩
           (mailOf scenarioEnv (scenarioFields (lit "a@b.co") (some (Json.bool true)))),
         Effect.consoleError [lit "Mailer-Fehler:", lit "ECONNREFUSED"]]⟩ ∧
    sentMails
        [Effect.createTransport ⟨lit "Gmail", scenarioEnv.EMAIL_USER, scenarioEnv.EMAIL_PASS⟩,
         Effect.sendMail ⟨lit "Gmail", scenarioEnv.EMAIL_USER, scenarioEnv.EMAIL_PASS⟩
           (mailOf scenarioEnv (scenarioFields (lit "a@b.co") (some (Json.bool true)))),
         Effect.consoleError [lit "Mailer-Fehler:", lit "ECONNREFUSED"]] =
      [mailOf scenarioEnv (scenarioFields (lit "a@b.co") (some (Json.bool true)))] ∧
    (∀ (other : Mailer) (err2 : MailError),
      other ⟨lit "Gmail", scenarioEnv.EMAIL_USER, scenarioEnv.EMAIL_PASS⟩
          (mailOf scenarioEnv (scenarioFields (lit "a@b.co") (some (Json.bool true)))) =
        Except.error err2 →
      ∃ o2 : Outcome, POST other scenarioEnv ⟨none, some scenarioBody⟩ = some o2 ∧
        o2.response = respond 500 (corsHeaders (requestOrigin ⟨none, some scenarioBody⟩))
          (lit "Fehler beim Senden der Nachricht.")) :=
  dispatch_failure_reported (failingMailer (lit "ECONNREFUSED")) scenarioEnv
    ⟨none, some scenarioBody⟩ scenarioBody
    (scenarioFields (lit "a@b.co") (some (Json.bool true))) (lit "ECONNREFUSED")
    rfl (by decide) (by rfl) (by intro q; cases q <;> decide) (by decide) (by decide) rfl

/-! ## C16: the permission headers are closed over the allow-list -/

/-- C16: for every origin string `o`, `corsHeaders(o)` is exactly the five
headers `Access-Control-Allow-Origin: a`, `Access-Control-Allow-Methods:
POST, OPTIONS`, `Access-Control-Allow-Headers: Content-Type`,
`Access-Control-Max-Age: 86400`, `Vary: Origin`, in which `a` is one of the
three allowed origins (the default being the first), and `corsHeaders(a)`
is the same five headers. -/
theorem cors_closed_idempotent (o : JsString) :
    ∃ a : JsString,
      corsHeaders o =
        [(lit "Access-Control-Allow-Origin", a),
         (lit "Access-Control-Allow-Methods", lit "POST, OPTIONS"),
         (lit "Access-Control-Allow-Headers", lit "Content-Type"),
         (lit "Access-Control-Max-Age", lit "86400"),
         (lit "Vary", lit "Origin")] ∧
      header (corsHeaders o) (lit "Access-Control-Allow-Origin") = some a ∧
      (a = lit "https://hexel-tech.de" ∨ a = lit "https://www.hexel-tech.de" ∨
        a = lit "https://hexel-node1.vercel.app") ∧
      corsHeaders a = corsHeaders o := by
  have hdef : ALLOWED_ORIGINS.contains (lit "https://hexel-tech.de") = true := by decide
  have hform : ∀ x : JsString, corsHeaders x =
      [(lit "Access-Control-Allow-Origin",
          if ALLOWED_ORIGINS.contains x = true then x else lit "https://hexel-tech.de"),
       (lit "Access-Control-Allow-Methods", lit "POST, OPTIONS"),
       (lit "Access-Control-Allow-Headers", lit "Content-Type"),
       (lit "Access-Control-Max-Age", lit "86400"),
       (lit "Vary", lit "Origin")] := fun _ => rfl
  have hhead : header (corsHeaders o) (lit "Access-Control-Allow-Origin") =
      some (if ALLOWED_ORIGINS.contains o = true then o else lit "https://hexel-tech.de") := by
    rfl
  by_cases hc : ALLOWED_ORIGINS.contains o = true
  · refine ⟨o, ?_, ?_, (ALLOWED_ORIGINS_contains_iff o).mp hc, rfl⟩
    · rw [hform, if_pos hc]
    · rw [hhead, if_pos hc]
  · refine ⟨lit "https://hexel-tech.de", ?_, ?_, Or.inl rfl, ?_⟩
    · rw [hform, if_neg hc]
    · rw [hhead, if_neg hc]
    · rw [hform, hform, if_pos hdef, if_neg hc]

/-! ## C17: normalising twice -/

/-- C17 fails as stated: for the scenario body whose name is `a`, 79 spaces
and `b`, the name used is `a` and 79 spaces (80 code units); it passes every
rule and the mail is sent.  Resubmitting the body with the name that was
used gives the name `a`, a different value, and the name rule rejects. -/
theorem renormalize_counterexample :
    normalize (namedBody sparseName) = some (namedFields (0x61 :: List.replicate 79 0x20)) ∧
    normalize (namedBody (0x61 :: List.replicate 79 0x20)) = some (namedFields [0x61]) ∧
    (namedFields [0x61]).name ≠ (namedFields (0x61 :: List.replicate 79 0x20)).name ∧
    POST okMailer scenarioEnv ⟨none, some (namedBody sparseName)⟩ =
      some ⟨respond 200 (corsHeaders [])
          (lit "Danke! Ihre Nachricht wurde erfolgreich gesendet."),
        [Effect.createTransport scenarioTransport,
         Effect.sendMail scenarioTransport
           (mailOf scenarioEnv (namedFields (0x61 :: List.replicate 79 0x20)))]⟩ ∧
    POST okMailer scenarioEnv ⟨none, some (namedBody (0x61 :: List.replicate 79 0x20))⟩ =
      some ⟨respond 400 (corsHeaders []) (lit "Name muss mindestens 2 Zeichen haben."), []⟩ := by
  refine ⟨by rfl, by rfl, by decide, by rfl, by rfl⟩

/-- C17 (amended): for every field with a maximum and every submitted string
`v`, resubmitting the value the handler used gives the trimmed form of that
value; it is the same value whenever the trimmed form of `v` is within the
maximum, and more generally whenever the value used does not end in white
space; a further resubmission changes nothing. -/
theorem renormalize_trims (fld : TextField) (body body2 body3 : Json) (f f2 f3 : Fields)
    (v : JsString) (hn : normalize body = some f)
    (hv : getProp body fld.key = some (Json.str v))
    (hn2 : normalize body2 = some f2)
    (hv2 : getProp body2 fld.key = some (Json.str (fld.value f)))
    (hn3 : normalize body3 = some f3)
    (hv3 : getProp body3 fld.key = some (Json.str (fld.value f2))) :
    fld.value f2 = trim (fld.value f) ∧
    ((trim v).length ≤ fld.max → fld.value f2 = fld.value f) ∧
    (NoTrailingSpace (fld.value f) → fld.value f2 = fld.value f) ∧
    fld.value f3 = fld.value f2 := by
  have h1 := value_normalize fld body f v hn hv
  have h2 := value_normalize fld body2 f2 (fld.value f) hn2 hv2
  have h3 := value_normalize fld body3 f3 (fld.value f2) hn3 hv3
  have hlen : (fld.value f).length ≤ fld.max := by
    rw [h1]
    exact length_limit_le _ _
  have hno : ∀ t : JsString, t.length ≤ fld.max → limit (trim t) fld.max = trim t := by
    intro t ht
    have := length_trim_le t
    rw [limit, if_neg (by omega)]
  have e2 : fld.value f2 = trim (fld.value f) := by
    rw [h2]
    exact hno _ hlen
  have hlead : NoLeadingSpace (fld.value f) := by
    rw [h1]
    exact noLeadingSpace_of_initial (limit_initial _ _) (noLeadingSpace_trim v)
  refine ⟨e2, ?_, ?_, ?_⟩
  · intro hle
    rw [e2, h1, limit, if_neg (by omega)]
    exact trim_trim v
  · intro ht
    rw [e2]
    exact trim_of_trimmed _ ⟨hlead, ht⟩
  · have hlen2 : (fld.value f2).length ≤ fld.max := by
      rw [h2]
      exact length_limit_le _ _
    rw [h3, hno _ hlen2, e2]
    exact trim_trim _

/-- C17 (amended) at the name field: the name 79 times `a`, a space and `b`
is used as 79 times `a` and the space, resubmitted as 79 times `a`, and
stays so. -/
theorem renormalize_trims_witness :
    TextField.name.value (namedFields (List.replicate 79 0x61)) =
      trim (TextField.name.value (namedFields (List.replicate 79 0x61 ++ lit " "))) ∧
    ((trim spaceAt80Name).length ≤ TextField.name.max →
      TextField.name.value (namedFields (List.replicate 79 0x61)) =
        TextField.name.value (namedFields (List.replicate 79 0x61 ++ lit " "))) ∧
    (NoTrailingSpace (TextField.name.value (namedFields (List.replicate 79 0x61 ++ lit " "))) →
      TextField.name.value (namedFields (List.replicate 79 0x61)) =
        TextField.name.value (namedFields (List.replicate 79 0x61 ++ lit " "))) ∧
    TextField.name.value (namedFields (List.replicate 79 0x61)) =
      TextField.name.value (namedFields (List.replicate 79 0x61)) :=
  renormalize_trims TextField.name (namedBody spaceAt80Name)
    (namedBody (List.replicate 79 0x61 ++ lit " ")) (namedBody (List.replicate 79 0x61))
    (namedFields (List.replicate 79 0x61 ++ lit " ")) (namedFields (List.replicate 79 0x61))
    (namedFields (List.replicate 79 0x61)) spaceAt80Name
    (by rfl) (by rfl) (by rfl) (by rfl) (by rfl) (by rfl)

/-! ## C18: when the honeypot fires -/

/-- The guard of line 56 in words: `website` is a string with a code unit
that is not white space. -/
theorem honeypot_eq_true_iff (body : Json) :
    honeypot body = true ↔
      ∃ w : JsString, getProp body (lit "website") = some (Json.str w) ∧
        ∃ c ∈ w, isWhiteSpace c = false := by
  have hstr : ∀ w : JsString, decide (0 < (trim w).length) = true ↔
      ∃ c ∈ w, isWhiteSpace c = false := by
    intro w
    rw [decide_eq_true_eq, List.length_pos, Ne, trim_eq_nil_iff]
    push_neg
    constructor
    · rintro ⟨c, hc, hn⟩
      exact ⟨c, hc, by simpa using hn⟩
    · rintro ⟨c, hc, hn⟩
      exact ⟨c, hc, by simp [hn]⟩
  unfold honeypot
  cases hq : getProp body (lit "website") with
  | none => simp
  | some j =>
    cases j with
    | str w =>
      simp only [Option.some.injEq, Json.str.injEq, exists_eq_left']
      exact hstr w
    | null => simp
    | bool b => simp
    | num n => simp
    | arr xs => simp
    | obj kvs => simp

/-- With the honeypot guard false, the run is not the honeypot response. -/
theorem POST_ne_honeypot (sendMail : Mailer) (env : Env) (req : Request) (body : Json)
    (hj : req.json = some body) (hh : honeypot body = false) :
    POST sendMail env req ≠
      some ⟨respond 200 (corsHeaders (requestOrigin req))
        (lit "Danke! Wir melden uns kurzfristig."), []⟩ := by
  intro hP
  cases hn : normalize body with
  | none =>
    rw [POST_threw sendMail env req body hj hh hn] at hP
    cases hP
  | some f =>
    rcases fails_none_or_some f with hv | hfail
    · rw [POST_valid sendMail env req body f hj hh hn hv] at hP
      split_ifs at hP
      · simp [respond] at hP
      · cases hs : sendMail ⟨lit "Gmail", env.EMAIL_USER, env.EMAIL_PASS⟩ (mailOf env f) with
        | ok u =>
          rw [hs] at hP
          simp [respond] at hP
        | error e =>
          rw [hs] at hP
          simp [respond] at hP
    · obtain ⟨r, hr, hfirst⟩ := exists_first_failing f hfail
      rw [POST_first_failing sendMail env req body f hj hh hn r hr hfirst] at hP
      simp [respond] at hP

/-- C18: for every request whose body parsed, the run is the honeypot
response (200, "Danke! Wir melden uns kurzfristig.", no action) exactly when
`website` is a string with at least one code unit that is not white space;
otherwise (absent, not a string, or white space only) the run goes on to
normalisation and validation: it throws when a conversion throws, and
otherwise a first failing rule answers with its message. -/
theorem honeypot_fires_iff (sendMail : Mailer) (env : Env) (req : Request) (body : Json)
    (hj : req.json = some body) :
    (POST sendMail env req =
        some ⟨respond 200 (corsHeaders (requestOrigin req))
          (lit "Danke! Wir melden uns kurzfristig."), []⟩ ↔
      ∃ w : JsString, getProp body (lit "website") = some (Json.str w) ∧
        ∃ c ∈ w, isWhiteSpace c = false) ∧
    ((¬ ∃ w : JsString, getProp body (lit "website") = some (Json.str w) ∧
        ∃ c ∈ w, isWhiteSpace c = false) →
      (normalize body = none → POST sendMail env req = none) ∧
      (∀ (f : Fields) (r : Rule), normalize body = some f → r.fails f = true →
        (∀ q : Rule, q.rank < r.rank → q.fails f = false) →
        POST sendMail env req =
          some ⟨respond 400 (corsHeaders (requestOrigin req)) r.errorMessage, []⟩)) := by
  constructor
  · rw [← honeypot_eq_true_iff]
    constructor
    · intro hP
      cases hh : honeypot body with
      | true => rfl
      | false => exact absurd hP (POST_ne_honeypot sendMail env req body hj hh)
    · intro hh
      exact POST_honeypot sendMail env req body hj hh
  · intro hno
    have hh : honeypot body = false := by
      cases hq : honeypot body with
      | false => rfl
      | true => exact absurd ((honeypot_eq_true_iff body).mp hq) hno
    exact ⟨fun hn => POST_threw sendMail env req body hj hh hn,
      fun f r hn hr hfirst => POST_first_failing sendMail env req body f hj hh hn r hr hfirst⟩

/-- C18 at the scenario body with `website` set to `"https://spam.example"`. -/
theorem honeypot_fires_iff_witness :
    (POST okMailer scenarioEnv ⟨none, some spamBody⟩ =
        some ⟨respond 200 (corsHeaders (requestOrigin ⟨none, some spamBody⟩))
          (lit "Danke! Wir melden uns kurzfristig."), []⟩ ↔
      ∃ w : JsString, getProp spamBody (lit "website") = some (Json.str w) ∧
        ∃ c ∈ w, isWhiteSpace c = false) ∧
    ((¬ ∃ w : JsString, getProp spamBody (lit "website") = some (Json.str w) ∧
        ∃ c ∈ w, isWhiteSpace c = false) →
      (normalize spamBody = none → POST okMailer scenarioEnv ⟨none, some spamBody⟩ = none) ∧
      (∀ (f : Fields) (r : Rule), normalize spamBody = some f → r.fails f = true →
        (∀ q : Rule, q.rank < r.rank → q.fails f = false) →
        POST okMailer scenarioEnv ⟨none, some spamBody⟩ =
          some ⟨respond 400 (corsHeaders (requestOrigin ⟨none, some spamBody⟩))
            r.errorMessage, []⟩)) :=
  honeypot_fires_iff okMailer scenarioEnv ⟨none, some spamBody⟩ spamBody rfl

/-! ## C19: the emails `isEmail` accepts -/

/-- C19 fails as stated: `isEmail` accepts `" a@b.co"`, which contains a
space. -/
theorem isEmail_accepts_leading_space :
    isEmail (lit " a@b.co") = true ∧ 0x20 ∈ lit " a@b.co" ∧ isWhiteSpace 0x20 = true := by
  refine ⟨by decide, by decide, by decide⟩

/-- C19 (amended): for every string accepted by `isEmail`, its trimmed form
contains exactly one `@`, contains no white space or line break, and is a
non-empty local part, `@`, a non-empty label, `.` and two or more further
code units up to the end; every `replyTo` handed to the collaborator is a
string accepted by `isEmail`. -/
theorem accepted_email_shape (v : JsString) (h : isEmail v = true) :
    (trim v).count 0x40 = 1 ∧
    (∀ c ∈ trim v, isWhiteSpace c = false) ∧
    (∃ loc b c : JsString, trim v = loc ++ 0x40 :: (b ++ 0x2E :: c) ∧
      loc ≠ [] ∧ b ≠ [] ∧ 2 ≤ c.length) ∧
    (∀ (sendMail : Mailer) (env : Env) (req : Request) (body : Json) (o : Outcome),
      req.json = some body → POST sendMail env req = some o →
      ∀ m ∈ sentMails o.trace, isEmail m.replyTo = true) := by
  obtain ⟨a, b, c, ht, ha, hb, hc, ha2, hb2, hc2⟩ := (isEmail_iff v).mp h
  have hcount : ∀ l : JsString, (∀ x ∈ l, isWhiteSpace x = false ∧ x ≠ 0x40) →
      l.count 0x40 = 0 := by
    intro l hl
    exact List.count_eq_zero.mpr (fun hmem => (hl 0x40 hmem).2 rfl)
  refine ⟨?_, ?_, ⟨a, b, c, ht, ?_, ?_, hc⟩, ?_⟩
  · rw [ht, List.count_append, List.count_cons, List.count_append, List.count_cons,
      hcount a ha2, hcount b hb2, hcount c hc2]
    rfl
  · intro x hx
    rw [ht] at hx
    rcases List.mem_append.mp hx with hx | hx
    · exact (ha2 x hx).1
    · rcases List.mem_cons.mp hx with rfl | hx
      · decide
      · rcases List.mem_append.mp hx with hx | hx
        · exact (hb2 x hx).1
        · rcases List.mem_cons.mp hx with rfl | hx
          · decide
          · exact (hc2 x hx).1
  · intro hnil
    rw [hnil] at ha
    exact absurd ha (by decide)
  · intro hnil
    rw [hnil] at hb
    exact absurd hb (by decide)
  · intro sendMail env req body o hj hP m hm
    obtain ⟨_, f, _, hv, _, hmf⟩ := valid_of_sent sendMail env req body o hj hP m hm
    have h1 := hv Rule.email
    simp only [Rule.fails, Bool.or_eq_false_iff, Bool.not_eq_false'] at h1
    rw [hmf]
    exact h1.2

/-- C19 (amended) at `" a@b.co"`. -/
theorem accepted_email_shape_witness :
    (trim (lit " a@b.co")).count 0x40 = 1 ∧
    (∀ c ∈ trim (lit " a@b.co"), isWhiteSpace c = false) ∧
    (∃ loc b c : JsString, trim (lit " a@b.co") = loc ++ 0x40 :: (b ++ 0x2E :: c) ∧
      loc ≠ [] ∧ b ≠ [] ∧ 2 ≤ c.length) ∧
    (∀ (sendMail : Mailer) (env : Env) (req : Request) (body : Json) (o : Outcome),
      req.json = some body → POST sendMail env req = some o →
      ∀ m ∈ sentMails o.trace, isEmail m.replyTo = true) :=
  accepted_email_shape (lit " a@b.co") (by decide)

/-! ## C20: the headers of every response -/

/-- The permission headers name no content type, so a response with a
string body carries them followed by the text content type. -/
theorem stringBodyHeaders_cors (o : JsString) :
    stringBodyHeaders (corsHeaders o) = corsHeaders o ++ [textContentType] := by
  have h : hasHeader (corsHeaders o) (lit "content-type") = false := by rfl
  rw [stringBodyHeaders, h]
  rfl

/-- C20 fails as stated: the success response for the scenario body of the
specification carries six headers, the five of `corsHeaders("")` and
`content-type: text/plain;charset=UTF-8`, while the `OPTIONS` preflight for
the same request carries the five only. -/
theorem response_headers_counterexample :
    POST okMailer scenarioEnv ⟨none, some scenarioBody⟩ =
      some ⟨respond 200 (corsHeaders [])
          (lit "Danke! Ihre Nachricht wurde erfolgreich gesendet."),
        [Effect.createTransport scenarioTransport,
         Effect.sendMail scenarioTransport
           (mailOf scenarioEnv (scenarioFields (lit "a@b.co") (some (Json.bool true))))]⟩ ∧
    header (respond 200 (corsHeaders [])
        (lit "Danke! Ihre Nachricht wurde erfolgreich gesendet.")).headers
      (lit "content-type") = some (lit "text/plain;charset=UTF-8") ∧
    header (corsHeaders []) (lit "content-type") = none ∧
    header (OPTIONS ⟨none, some scenarioBody⟩).headers (lit "content-type") = none ∧
    (respond 200 (corsHeaders [])
        (lit "Danke! Ihre Nachricht wurde erfolgreich gesendet.")).headers.length = 6 ∧
    (OPTIONS ⟨none, some scenarioBody⟩).headers.length = 5 ∧
    (respond 200 (corsHeaders [])
        (lit "Danke! Ihre Nachricht wurde erfolgreich gesendet.")).headers ≠
      (OPTIONS ⟨none, some scenarioBody⟩).headers := by
  refine ⟨by rfl, by decide, by decide, by decide, by decide, by decide, ?_⟩
  intro h
  exact absurd (congrArg List.length h) (by decide)

/-- C20 (amended): every response the handler returns, on whatever path,
carries exactly the headers `corsHeaders(origin)` of the request origin,
which are the headers of the `OPTIONS` preflight for that request, followed
by the header `content-type: text/plain;charset=UTF-8` that the `Response`
constructor adds for a string body; any other run for the same origin
header, whatever its body, environment and collaborator, returns the same
headers. -/
theorem response_headers (sendMail : Mailer) (env : Env) (req : Request) (o : Outcome)
    (hP : POST sendMail env req = some o) :
    o.response.headers =
      corsHeaders (requestOrigin req) ++
        [(lit "content-type", lit "text/plain;charset=UTF-8")] ∧
    o.response.headers =
      (OPTIONS req).headers ++ [(lit "content-type", lit "text/plain;charset=UTF-8")] ∧
    (∀ (other : Mailer) (env2 : Env) (json2 : Option Json) (o2 : Outcome),
      POST other env2 ⟨req.origin, json2⟩ = some o2 →
      o2.response.headers = o.response.headers) := by
  have key : ∀ (sm : Mailer) (e : Env) (r : Request) (x : Outcome),
      POST sm e r = some x →
      x.response.headers = corsHeaders (requestOrigin r) ++ [textContentType] := by
    intro sm e r x hx
    obtain ⟨status, msg, hresp, _⟩ := POST_returns sm e r x hx
    rw [hresp]
    exact stringBodyHeaders_cors _
  refine ⟨key sendMail env req o hP, key sendMail env req o hP, ?_⟩
  intro other env2 json2 o2 h2
  rw [key other env2 ⟨req.origin, json2⟩ o2 h2, key sendMail env req o hP,
    requestOrigin_eq, requestOrigin_eq]

/-- C20 (amended) at the scenario request of the specification. -/
theorem response_headers_witness :
    (respond 200 (corsHeaders [])
        (lit "Danke! Ihre Nachricht wurde erfolgreich gesendet.")).headers =
      corsHeaders (requestOrigin ⟨none, some scenarioBody⟩) ++
        [(lit "content-type", lit "text/plain;charset=UTF-8")] ∧
    (respond 200 (corsHeaders [])
        (lit "Danke! Ihre Nachricht wurde erfolgreich gesendet.")).headers =
      (OPTIONS ⟨none, some scenarioBody⟩).headers ++
        [(lit "content-type", lit "text/plain;charset=UTF-8")] ∧
    (∀ (other : Mailer) (env2 : Env) (json2 : Option Json) (o2 : Outcome),
      POST other env2 ⟨none, json2⟩ = some o2 →
      o2.response.headers =
        (respond 200 (corsHeaders [])
          (lit "Danke! Ihre Nachricht wurde erfolgreich gesendet.")).headers) :=
  response_headers okMailer scenarioEnv ⟨none, some scenarioBody⟩
    ⟨respond 200 (corsHeaders [])
        (lit "Danke! Ihre Nachricht wurde erfolgreich gesendet."),
      [Effect.createTransport scenarioTransport,
       Effect.sendMail scenarioTransport
         (mailOf scenarioEnv (scenarioFields (lit "a@b.co") (some (Json.bool true))))]⟩
    (by rfl)

end Contact
